import Mathlib

/-!
# ACRN hypervisor: shared ring buffer and multiboot ingestion

A shallow embedding of `hypervisor/common/sbuf.c` and
`hypervisor/boot/multiboot/multiboot.c`.

Conventions of the embedding:

* a `uint32_t` is a `Nat`; every place where the C arithmetic can wrap carries an
  explicit `% 2 ^ 32`, and theorems that need a field to be a genuine 32-bit value
  say so in a hypothesis;
* a byte is a `Nat` (no arithmetic is ever done on payload bytes);
* a `uint8_t *` that is only read is the function giving the byte at each index;
* the slot storage that follows the header of a shared buffer is the function giving
  the byte at each offset from `(void *)sbuf + SBUF_HEAD_SIZE`;
* constants whose header is not part of the sources (`OVERWRITE_EN`,
  `OVERRUN_CNT_EN`, `MAX_MMAP_ENTRIES`, ...) are parameters.
-/

namespace Acrn

/-! ## Shared buffer (`sbuf.c`) -/

/-- Modelled from the spec: the header fields of `struct shared_buf` that `sbuf.c`
reads or writes (the declaring header is not among the sources), followed by the slot
storage `buf`, indexed by byte offset from the end of the header. -/
structure shared_buf where
  ele_size : Nat
  size : Nat
  head : Nat
  tail : Nat
  overrun_cnt : Nat
  flags : Nat
  buf : Nat → Nat

/-- Embedding of `sbuf_next_ptr`: `pos += span` in 32-bit arithmetic, then one conditional
subtraction of `scope`. -/
def sbuf_next_ptr (pos_arg span scope : Nat) : Nat :=
  let pos := (pos_arg + span) % 2 ^ 32
  if pos ≥ scope then pos - scope else pos

/-- Modelled from the spec: `memcpy_s(to, n, data, n)` with `to` at offset `off` of the
slot storage copies the `n` bytes `data[0 .. n-1]` to offsets `off .. off+n-1` and leaves
every other byte alone (the routine itself lives in a library outside the sources). -/
def memcpy_s (mem : Nat → Nat) (off : Nat) (data : Nat → Nat) (n : Nat) : Nat → Nat :=
  fun j => if off ≤ j ∧ j < off + n then data (j - off) else mem j

/-- Embedding of `sbuf_put`.  The result is the returned `uint32_t` together with the
buffer after the call.  `stac`, `clac` and the write barrier have no effect on the
buffer contents; `sbuf_put_events` below records them together with the accesses. -/
def sbuf_put (OVERWRITE_EN OVERRUN_CNT_EN : Nat) (sbuf : shared_buf) (data : Nat → Nat) :
    Nat × shared_buf :=
  let next_tail := sbuf_next_ptr sbuf.tail sbuf.ele_size sbuf.size
  if next_tail = sbuf.head ∧ (sbuf.flags &&& OVERWRITE_EN) = 0 then
    (0, sbuf)
  else
    let trigger_overwrite : Bool := decide (next_tail = sbuf.head)
    let s1 : shared_buf :=
      if next_tail = sbuf.head then
        { sbuf with overrun_cnt := (sbuf.overrun_cnt + (sbuf.flags &&& OVERRUN_CNT_EN)) % 2 ^ 32 }
      else sbuf
    let s2 : shared_buf := { s1 with buf := memcpy_s s1.buf s1.tail data s1.ele_size }
    let s3 : shared_buf :=
      if trigger_overwrite then
        { s2 with head := sbuf_next_ptr s2.head s2.ele_size s2.size }
      else s2
    let s4 : shared_buf := { s3 with tail := next_tail }
    (s4.ele_size, s4)

/-- A full 4-slot buffer of 8-byte elements (`head = 0`, `tail = 24`), no flag set. -/
def full_buf_no_flags : shared_buf :=
  { ele_size := 8, size := 32, head := 0, tail := 24, overrun_cnt := 0, flags := 0,
    buf := fun _ => 0 }

/-- A full 4-slot buffer of 8-byte elements (`head = 8`, `tail = 0`) with flag bits 0 and 1
set and `overrun_cnt = 5`. -/
def full_buf_both_flags : shared_buf :=
  { ele_size := 8, size := 32, head := 8, tail := 0, overrun_cnt := 5, flags := 3,
    buf := fun _ => 0 }

/-- A record whose `i`-th byte is `i`. -/
def ramp_record : Nat → Nat := fun i => i % 256

/-- Validity of a shared buffer: `ele_size > 0`, `size` a positive multiple of `ele_size`
that fits in 32 bits, `head` and `tail` below `size` and multiples of `ele_size`. -/
def sbuf_valid (s : shared_buf) : Prop :=
  0 < s.ele_size ∧ 0 < s.size ∧ s.size % s.ele_size = 0 ∧ s.size < 2 ^ 32 ∧
  s.head < s.size ∧ s.tail < s.size ∧ s.head % s.ele_size = 0 ∧ s.tail % s.ele_size = 0

instance sbuf_valid_decidable (s : shared_buf) : Decidable (sbuf_valid s) := by
  unfold sbuf_valid
  infer_instance

/-- Occupied byte count of the ring, `(tail − head) mod size`, written without `mod`. -/
def sbuf_used (s : shared_buf) : Nat :=
  if s.head ≤ s.tail then s.tail - s.head else s.tail + s.size - s.head

/-- The `n` bytes of slot storage starting at offset `off`. -/
def read_slot (mem : Nat → Nat) (off n : Nat) : List Nat :=
  (List.range n).map fun i => mem (off + i)

/-- The first `n` bytes of a record. -/
def record_bytes (data : Nat → Nat) (n : Nat) : List Nat :=
  (List.range n).map data

/-- Modelled from the spec: the consumer-side drain loop (the reader is not part of the
sources).  While `head != tail`: read `ele_size` bytes at slot offset `head`, then set
`head = sbuf_next_ptr(head, ele_size, size)`.  The result is the list of records read;
`none` means the loop did not reach `head == tail` within `fuel` iterations. -/
def sbuf_drain : Nat → shared_buf → Option (List (List Nat))
  | 0, s => if s.head = s.tail then some [] else none
  | fuel + 1, s =>
    if s.head = s.tail then some []
    else
      (sbuf_drain fuel { s with head := sbuf_next_ptr s.head s.ele_size s.size }).map
        fun l => read_slot s.buf s.head s.ele_size :: l

/-- Consecutive `sbuf_put` calls with no consumer activity in between: the list of
returned values, in call order, and the buffer after the last call. -/
def sbuf_put_all (OVERWRITE_EN OVERRUN_CNT_EN : Nat) :
    shared_buf → List (Nat → Nat) → List Nat × shared_buf
  | s, [] => ([], s)
  | s, d :: ds =>
    let r := sbuf_put OVERWRITE_EN OVERRUN_CNT_EN s d
    let rest := sbuf_put_all OVERWRITE_EN OVERRUN_CNT_EN r.2 ds
    (r.1 :: rest.1, rest.2)

/-- An empty 4-slot buffer of 8-byte elements, no flag set. -/
def empty_buf_8_32 : shared_buf :=
  { ele_size := 8, size := 32, head := 0, tail := 0, overrun_cnt := 0, flags := 0,
    buf := fun _ => 0 }

/-- A record all of whose bytes are `c`. -/
def const_record (c : Nat) : Nat → Nat := fun _ => c

/-- A full 4-slot buffer of 8-byte elements (`head = 8`, `tail = 0`) with flag bits 0 and 1
set, in which every byte of slot `k` is `10 + k`. -/
def full_buf_numbered : shared_buf :=
  { ele_size := 8, size := 32, head := 8, tail := 0, overrun_cnt := 5, flags := 3,
    buf := fun j => 10 + j / 8 }

/-! ## Multiboot ingestion (`multiboot.c`) -/

/-- Constants used by `multiboot.c` whose headers are not among the sources; they are
parameters of the embedding.  `sizeof_mmap` is `sizeof(struct multiboot_mmap)`. -/
structure boot_consts where
  MULTIBOOT_INFO_HAS_MMAP : Nat
  MULTIBOOT_INFO_HAS_MODS : Nat
  MAX_MMAP_ENTRIES : Nat
  MAX_MODULE_NUM : Nat
  sizeof_mmap : Nat

/-- Modelled from the spec: the fields of the external `struct multiboot_info` that
`multiboot_to_acrn_bi` reads (the declaring header is not among the sources). -/
structure multiboot_info where
  mi_flags : Nat
  mi_cmdline : Nat
  mi_loader_name : Nat
  mi_mmap_length : Nat
  mi_mmap_addr : Nat
  mi_mods_count : Nat
  mi_mods_addr : Nat

/-- Modelled from the spec: the fields of `struct acrn_boot_info` that
`multiboot_to_acrn_bi` writes (the declaring header is not among the sources).  The entry
types are parameters; an array is the function from index to entry, pointers are
addresses. -/
structure acrn_boot_info (Mmap Module : Type) where
  mi_flags : Nat
  mi_cmdline : Nat
  mi_loader_name : Nat
  mi_mmap_entries : Nat
  mi_mmap_entry : Nat → Mmap
  mi_mods_count : Nat
  mi_mods : Nat → Module

/-- External memory as `multiboot_to_acrn_bi` reads it through translated addresses: the
descriptor stored at an address, and entry `i` of the memory-map / module table stored at
an address. -/
structure boot_memory (Mmap Module : Type) where
  mbi_at : Nat → multiboot_info
  mmap_at : Nat → Nat → Mmap
  mods_at : Nat → Nat → Module

/-- Modelled from the spec: `memcpy_s(&dst[0], n * sizeof(entry), src, n * sizeof(entry))`
copies the first `n` entries of `src` over `dst` verbatim and leaves the rest of `dst`
alone (the routine itself lives in a library outside the sources). -/
def memcpy_s_entries {E : Type} (dst src : Nat → E) (n : Nat) : Nat → E :=
  fun i => if i < n then src i else dst i

/-- Embedding of `multiboot_to_acrn_bi`.  `hpa2hva_early` is the external address
translation, `NULL` is address 0, and the result is the returned `int32_t` together with
`*abi` after the call. -/
def multiboot_to_acrn_bi {Mmap Module : Type} (k : boot_consts) (hpa2hva_early : Nat → Nat)
    (mem : boot_memory Mmap Module) (abi : acrn_boot_info Mmap Module) (mb_info : Nat) :
    Int × acrn_boot_info Mmap Module :=
  let mbi := mem.mbi_at (hpa2hva_early mb_info)
  let mmap := hpa2hva_early mbi.mi_mmap_addr
  let mods := hpa2hva_early mbi.mi_mods_addr
  let abi1 : acrn_boot_info Mmap Module :=
    { abi with
      mi_flags := mbi.mi_flags
      mi_cmdline := hpa2hva_early mbi.mi_cmdline
      mi_loader_name := hpa2hva_early mbi.mi_loader_name
      mi_mmap_entries := (mbi.mi_mmap_length / k.sizeof_mmap) % 2 ^ 32
      mi_mods_count := mbi.mi_mods_count }
  let abi2 : acrn_boot_info Mmap Module :=
    if (mbi.mi_flags &&& k.MULTIBOOT_INFO_HAS_MMAP) ≠ 0 ∧ abi1.mi_mmap_entries ≠ 0 ∧ mmap ≠ 0 then
      let abi1c : acrn_boot_info Mmap Module :=
        if abi1.mi_mmap_entries > k.MAX_MMAP_ENTRIES then
          { abi1 with mi_mmap_entries := k.MAX_MMAP_ENTRIES }
        else abi1
      { abi1c with
        mi_mmap_entry :=
          memcpy_s_entries abi1c.mi_mmap_entry (mem.mmap_at mmap) abi1c.mi_mmap_entries }
    else { abi1 with mi_mmap_entries := 0 }
  let abi3 : acrn_boot_info Mmap Module :=
    if (mbi.mi_flags &&& k.MULTIBOOT_INFO_HAS_MODS) ≠ 0 ∧ abi2.mi_mods_count ≠ 0 ∧ mods ≠ 0 then
      let abi2c : acrn_boot_info Mmap Module :=
        if abi2.mi_mods_count > k.MAX_MODULE_NUM then
          { abi2 with mi_mods_count := k.MAX_MODULE_NUM }
        else abi2
      { abi2c with
        mi_mods := memcpy_s_entries abi2c.mi_mods (mem.mods_at mods) abi2c.mi_mods_count }
    else { abi2 with mi_mods_count := 0 }
  (0, abi3)

/-- Example constants: flag bits 6 and 3, capacities 32 and 4, 24-byte map entries. -/
def example_consts : boot_consts :=
  { MULTIBOOT_INFO_HAS_MMAP := 64, MULTIBOOT_INFO_HAS_MODS := 8, MAX_MMAP_ENTRIES := 32,
    MAX_MODULE_NUM := 4, sizeof_mmap := 24 }

/-- Example external memory: a descriptor with the memory-map flag set and a table of
`32 + 5` entries (`888 = 37 * 24` bytes) at address 4096; external map entry `i` is
`1000 + i`. -/
def example_memory : boot_memory Nat Nat :=
  { mbi_at := fun _ =>
      { mi_flags := 64, mi_cmdline := 0, mi_loader_name := 0, mi_mmap_length := 888,
        mi_mmap_addr := 4096, mi_mods_count := 0, mi_mods_addr := 0 }
    mmap_at := fun _ i => 1000 + i
    mods_at := fun _ i => 2000 + i }

/-- Example boot record before ingestion: everything zero. -/
def example_abi : acrn_boot_info Nat Nat :=
  { mi_flags := 0, mi_cmdline := 0, mi_loader_name := 0, mi_mmap_entries := 0,
    mi_mmap_entry := fun _ => 0, mi_mods_count := 0, mi_mods := fun _ => 0 }

/-- Embedding of `init_multiboot_info`.  `registers[i]` is `registers i`, the record
returned by `get_acrn_boot_info()` is passed in as `abi` and returned with the status.
`boot_from_multiboot` (an inline helper of a header that is not among the sources) and the
`errno` value `ENODEV` are parameters. -/
def init_multiboot_info {Mmap Module : Type} (k : boot_consts) (ENODEV : Int)
    (boot_from_multiboot : Nat → Nat → Bool) (hpa2hva_early : Nat → Nat)
    (mem : boot_memory Mmap Module) (abi : acrn_boot_info Mmap Module)
    (registers : Nat → Nat) : Int × acrn_boot_info Mmap Module :=
  let magic := registers 0
  let info := registers 1
  if boot_from_multiboot magic info then
    let r := multiboot_to_acrn_bi k hpa2hva_early mem abi (hpa2hva_early info)
    if r.1 = 0 then (0, r.2) else (-ENODEV, r.2)
  else (-ENODEV, abi)

/-- Example boot-source check: the magic is `0x2BADB002` and the descriptor address is not
zero. -/
def example_boot_check : Nat → Nat → Bool :=
  fun magic info => decide (magic = 732803074) && decide (info ≠ 0)

/-- Example register pair with a wrong magic. -/
def example_bad_registers : Nat → Nat :=
  fun i => if i = 0 then 305419896 else 65536

/-- Example external memory with the memory-map flag set but a null table address, and
the modules flag set with a table of 6 modules at address 8192. -/
def example_memory_null_mmap : boot_memory Nat Nat :=
  { mbi_at := fun _ =>
      { mi_flags := 72, mi_cmdline := 0, mi_loader_name := 0, mi_mmap_length := 888,
        mi_mmap_addr := 0, mi_mods_count := 6, mi_mods_addr := 8192 }
    mmap_at := fun _ i => 1000 + i
    mods_at := fun _ i => 2000 + i }

/-- Example boot record holding earlier content: map entry `i` is `7 + i`. -/
def example_abi_used : acrn_boot_info Nat Nat :=
  { mi_flags := 1, mi_cmdline := 2, mi_loader_name := 3, mi_mmap_entries := 4,
    mi_mmap_entry := fun i => 7 + i, mi_mods_count := 5, mi_mods := fun i => 9 + i }

/-! ## Buffer dispatch (`sbuf_setup_common`) -/

/-- The buffer-kind identifiers named by the `case` labels of `sbuf_setup_common`; their
values come from a header that is not among the sources and are parameters. -/
structure sbuf_ids where
  ACRN_TRACE : Nat
  ACRN_HVLOG : Nat
  ACRN_SEP : Nat
  ACRN_SOCWATCH : Nat
  ACRN_ASYNCIO : Nat
  ACRN_VM_EVENT : Nat

/-- The case labels of a C `switch` are pairwise distinct. -/
def sbuf_ids.distinct (ids : sbuf_ids) : Prop :=
  [ids.ACRN_TRACE, ids.ACRN_HVLOG, ids.ACRN_SEP, ids.ACRN_SOCWATCH, ids.ACRN_ASYNCIO,
    ids.ACRN_VM_EVENT].Nodup

instance sbuf_ids_distinct_decidable (ids : sbuf_ids) : Decidable ids.distinct := by
  unfold sbuf_ids.distinct
  infer_instance

/-- The external calls `sbuf_setup_common` can make, with their arguments. -/
inductive setup_call (VM : Type) where
  | sbuf_share_setup (cpu_id sbuf_id hva : Nat)
  | init_asyncio (vm : VM) (hva : Nat)
  | init_vm_event (vm : VM) (hva : Nat)
  | pr_err (sbuf_id : Nat)
  deriving DecidableEq

/-- The values returned by the three external setup routines, as functions of their
arguments. -/
structure setup_externals (VM : Type) where
  sbuf_share_setup : Nat → Nat → Nat → Int
  init_asyncio : VM → Nat → Int
  init_vm_event : VM → Nat → Int

/-- Embedding of `sbuf_setup_common`: the returned `int32_t` and the external calls made,
in order.  The `switch` is the chain of comparisons against its case labels. -/
def sbuf_setup_common {VM : Type} (ids : sbuf_ids) (ext : setup_externals VM) (vm : VM)
    (cpu_id sbuf_id hva : Nat) : Int × List (setup_call VM) :=
  if sbuf_id = ids.ACRN_TRACE ∨ sbuf_id = ids.ACRN_HVLOG ∨ sbuf_id = ids.ACRN_SEP ∨
      sbuf_id = ids.ACRN_SOCWATCH then
    (ext.sbuf_share_setup cpu_id sbuf_id hva, [setup_call.sbuf_share_setup cpu_id sbuf_id hva])
  else if sbuf_id = ids.ACRN_ASYNCIO then
    (ext.init_asyncio vm hva, [setup_call.init_asyncio vm hva])
  else if sbuf_id = ids.ACRN_VM_EVENT then
    (ext.init_vm_event vm hva, [setup_call.init_vm_event vm hva])
  else
    (-1, [setup_call.pr_err sbuf_id])

/-- Example identifiers `0 .. 5`. -/
def example_ids : sbuf_ids :=
  { ACRN_TRACE := 0, ACRN_HVLOG := 1, ACRN_SEP := 2, ACRN_SOCWATCH := 3, ACRN_ASYNCIO := 4,
    ACRN_VM_EVENT := 5 }

/-- Example external routines with distinguishable results. -/
def example_externals : setup_externals Nat :=
  { sbuf_share_setup := fun cpu_id sbuf_id _ => 100 + 10 * cpu_id + sbuf_id
    init_asyncio := fun vm _ => 200 + vm
    init_vm_event := fun vm _ => 300 + vm }

/-! ## Effects of `sbuf_put` in program order -/

/-- The header fields of `struct shared_buf` that `sbuf_put` accesses. -/
inductive sbuf_field where
  | ele_size
  | size
  | head
  | tail
  | overrun_cnt
  | flags
  deriving DecidableEq

/-- The effects of one `sbuf_put` call: opening and closing the guest-memory access
bracket, a load or store of a header field, the payload copy into slot storage, and the
store barrier. -/
inductive sbuf_event where
  | stac
  | clac
  | load (f : sbuf_field)
  | store (f : sbuf_field)
  | memcpy_s
  | cpu_write_memory_barrier
  deriving DecidableEq

/-- Embedding of `sbuf_put` that also records its effects in program order, statement by
statement (operands left to right; the right operand of `&&` only when the left one
holds).  The first component is the returned value and the buffer after the call. -/
def sbuf_put_events (OVERWRITE_EN OVERRUN_CNT_EN : Nat) (sbuf : shared_buf)
    (data : Nat → Nat) : (Nat × shared_buf) × List sbuf_event :=
  let t0 : List sbuf_event := [sbuf_event.stac]
  let next_tail := sbuf_next_ptr sbuf.tail sbuf.ele_size sbuf.size
  let t1 := t0 ++ [sbuf_event.load sbuf_field.tail, sbuf_event.load sbuf_field.ele_size,
    sbuf_event.load sbuf_field.size]
  let t2 := t1 ++ [sbuf_event.load sbuf_field.head] ++
    (if next_tail = sbuf.head then [sbuf_event.load sbuf_field.flags] else [])
  if next_tail = sbuf.head ∧ (sbuf.flags &&& OVERWRITE_EN) = 0 then
    ((0, sbuf), t2 ++ [sbuf_event.clac])
  else
    let trigger_overwrite : Bool := decide (next_tail = sbuf.head)
    let t3 := t2 ++ [sbuf_event.load sbuf_field.head]
    let s1 : shared_buf :=
      if next_tail = sbuf.head then
        { sbuf with overrun_cnt := (sbuf.overrun_cnt + (sbuf.flags &&& OVERRUN_CNT_EN)) % 2 ^ 32 }
      else sbuf
    let t4 := t3 ++
      (if next_tail = sbuf.head then
        [sbuf_event.load sbuf_field.overrun_cnt, sbuf_event.load sbuf_field.flags,
          sbuf_event.store sbuf_field.overrun_cnt]
      else [])
    let t5 := t4 ++ [sbuf_event.load sbuf_field.tail]
    let s2 : shared_buf := { s1 with buf := memcpy_s s1.buf s1.tail data s1.ele_size }
    let t6 := t5 ++ [sbuf_event.load sbuf_field.ele_size, sbuf_event.load sbuf_field.ele_size,
      sbuf_event.memcpy_s]
    let t7 := t6 ++ [sbuf_event.cpu_write_memory_barrier]
    let s3 : shared_buf :=
      if trigger_overwrite then
        { s2 with head := sbuf_next_ptr s2.head s2.ele_size s2.size }
      else s2
    let t8 := t7 ++
      (if trigger_overwrite then
        [sbuf_event.load sbuf_field.head, sbuf_event.load sbuf_field.ele_size,
          sbuf_event.load sbuf_field.size, sbuf_event.store sbuf_field.head]
      else [])
    let s4 : shared_buf := { s3 with tail := next_tail }
    let t9 := t8 ++ [sbuf_event.store sbuf_field.tail]
    let t10 := t9 ++ [sbuf_event.load sbuf_field.ele_size]
    ((s4.ele_size, s4), t10 ++ [sbuf_event.clac])

/-- Whether an event touches the shared buffer (a header field or the slot storage). -/
def sbuf_event.is_access : sbuf_event → Bool
  | sbuf_event.load _ => true
  | sbuf_event.store _ => true
  | sbuf_event.memcpy_s => true
  | _ => false

/-- Whether an event is a store to `head` or to `tail`. -/
def sbuf_event.is_index_store : sbuf_event → Bool
  | sbuf_event.store sbuf_field.head => true
  | sbuf_event.store sbuf_field.tail => true
  | _ => false

/-- A 4-slot buffer of 8-byte elements holding one element (`head = 8`, `tail = 16`), both
flag bits set. -/
def one_element_buf : shared_buf :=
  { ele_size := 8, size := 32, head := 8, tail := 16, overrun_cnt := 0, flags := 3,
    buf := fun _ => 0 }

/-! ## Theorems: `sbuf_next_ptr` -/

/-- Helper: without 32-bit wraparound `sbuf_next_ptr` is one conditional subtraction. -/
theorem sbuf_next_ptr_of_no_wrap (pos stride scope : Nat) (h : pos + stride < 2 ^ 32) :
    sbuf_next_ptr pos stride scope
      = if pos + stride < scope then pos + stride else pos + stride - scope := by
  unfold sbuf_next_ptr
  have hm : (pos + stride) % 2 ^ 32 = pos + stride := Nat.mod_eq_of_lt h
  simp only [hm]
  split <;> split <;> first | rfl | omega

/-- C8 (as stated, refuted): with `pos = 2^31`, `stride = 2^31`, `scope = 2^31 + 1` all
preconditions of the claim hold, the 32-bit sum wraps to `0`, and `sbuf_next_ptr` returns
`0` while the claimed value `pos + stride − scope` is `2^31 − 1`. -/
theorem sbuf_next_ptr_claimed_formula_fails :
    ¬ (∀ pos stride scope : Nat, pos < 2 ^ 32 → stride < 2 ^ 32 → scope < 2 ^ 32 →
        pos < scope → 0 < stride → stride ≤ scope →
        sbuf_next_ptr pos stride scope
          = if pos + stride < scope then pos + stride else pos + stride - scope) := by
  intro h
  have h1 := h 2147483648 2147483648 2147483649 (by decide) (by decide) (by decide)
    (by decide) (by decide) (by decide)
  revert h1
  decide

/-- C8 (amended): for 32-bit `pos`, `stride`, `scope` with `pos < scope`,
`0 < stride ≤ scope` and a sum `pos + stride` that fits in 32 bits, `sbuf_next_ptr`
returns `pos + stride` when that is below `scope` and `pos + stride − scope` otherwise. -/
theorem sbuf_next_ptr_formula (pos stride scope : Nat)
    (_hscope : scope < 2 ^ 32) (_hpos : pos < scope) (_hs0 : 0 < stride)
    (_hs : stride ≤ scope) (hsum : pos + stride < 2 ^ 32) :
    sbuf_next_ptr pos stride scope
      = if pos + stride < scope then pos + stride else pos + stride - scope :=
  sbuf_next_ptr_of_no_wrap pos stride scope hsum

/-- Witness for C8 (amended): the wrapping step of a 4-slot buffer of 8-byte elements. -/
theorem sbuf_next_ptr_formula_witness :
    (32 < 2 ^ 32 ∧ 24 < 32 ∧ 0 < 8 ∧ 8 ≤ 32 ∧ 24 + 8 < 2 ^ 32) ∧
    sbuf_next_ptr 24 8 32 = if 24 + 8 < 32 then 24 + 8 else 24 + 8 - 32 :=
  ⟨by decide,
   sbuf_next_ptr_formula 24 8 32 (by decide) (by decide) (by decide) (by decide) (by decide)⟩

/-- C9: for 32-bit `pos`, `stride`, `scope` with `pos < scope` and `0 < stride ≤ scope`
the result of `sbuf_next_ptr` is below `scope`, whether or not the 32-bit sum wraps. -/
theorem sbuf_next_ptr_lt_scope (pos stride scope : Nat)
    (_hscope : scope < 2 ^ 32) (hpos : pos < scope) (hs0 : 0 < stride) (hs : stride ≤ scope) :
    sbuf_next_ptr pos stride scope < scope := by
  unfold sbuf_next_ptr
  simp only
  split <;> omega

/-- Witness for C9: an input whose 32-bit sum wraps. -/
theorem sbuf_next_ptr_lt_scope_witness :
    (2147483649 < 2 ^ 32 ∧ 2147483648 < 2147483649 ∧ 0 < 2147483648 ∧
      2147483648 ≤ 2147483649) ∧
    sbuf_next_ptr 2147483648 2147483648 2147483649 < 2147483649 :=
  ⟨by decide,
   sbuf_next_ptr_lt_scope 2147483648 2147483648 2147483649 (by decide) (by decide)
     (by decide) (by decide)⟩

/-! ## Theorems: one call of `sbuf_put` -/

/-- C1: when `OVERWRITE_EN` is clear in `flags` and the buffer is full
(`sbuf_next_ptr(tail, ele_size, size) == head`), `sbuf_put` returns 0 and the buffer after
the call is the buffer before it: `head`, `tail`, `overrun_cnt`, `flags`, `ele_size`,
`size` and every byte of slot storage are unchanged. -/
theorem sbuf_put_full_dropped (OVERWRITE_EN OVERRUN_CNT_EN : Nat) (sbuf : shared_buf)
    (data : Nat → Nat)
    (hflag : sbuf.flags &&& OVERWRITE_EN = 0)
    (hfull : sbuf_next_ptr sbuf.tail sbuf.ele_size sbuf.size = sbuf.head) :
    (sbuf_put OVERWRITE_EN OVERRUN_CNT_EN sbuf data).1 = 0 ∧
    (sbuf_put OVERWRITE_EN OVERRUN_CNT_EN sbuf data).2 = sbuf ∧
    (sbuf_put OVERWRITE_EN OVERRUN_CNT_EN sbuf data).2.head = sbuf.head ∧
    (sbuf_put OVERWRITE_EN OVERRUN_CNT_EN sbuf data).2.tail = sbuf.tail ∧
    (sbuf_put OVERWRITE_EN OVERRUN_CNT_EN sbuf data).2.overrun_cnt = sbuf.overrun_cnt ∧
    (sbuf_put OVERWRITE_EN OVERRUN_CNT_EN sbuf data).2.flags = sbuf.flags ∧
    (sbuf_put OVERWRITE_EN OVERRUN_CNT_EN sbuf data).2.ele_size = sbuf.ele_size ∧
    (sbuf_put OVERWRITE_EN OVERRUN_CNT_EN sbuf data).2.size = sbuf.size ∧
    ∀ j, (sbuf_put OVERWRITE_EN OVERRUN_CNT_EN sbuf data).2.buf j = sbuf.buf j := by
  have h : sbuf_put OVERWRITE_EN OVERRUN_CNT_EN sbuf data = (0, sbuf) := by
    unfold sbuf_put
    simp [hflag, hfull]
  simp [h]

/-- Witness for C1: the full buffer `full_buf_no_flags` with `OVERWRITE_EN = 2`. -/
theorem sbuf_put_full_dropped_witness :
    (full_buf_no_flags.flags &&& 2 = 0 ∧
      sbuf_next_ptr full_buf_no_flags.tail full_buf_no_flags.ele_size full_buf_no_flags.size
        = full_buf_no_flags.head) ∧
    (sbuf_put 2 1 full_buf_no_flags ramp_record).1 = 0 ∧
    (sbuf_put 2 1 full_buf_no_flags ramp_record).2 = full_buf_no_flags :=
  ⟨by decide,
   (sbuf_put_full_dropped 2 1 full_buf_no_flags ramp_record (by decide) (by decide)).1,
   (sbuf_put_full_dropped 2 1 full_buf_no_flags ramp_record (by decide) (by decide)).2.1⟩

/-- Helper: the state and return value of `sbuf_put` on the write path, field by field. -/
theorem sbuf_put_write_path (OVERWRITE_EN OVERRUN_CNT_EN : Nat) (sbuf : shared_buf)
    (data : Nat → Nat)
    (h : ¬ (sbuf_next_ptr sbuf.tail sbuf.ele_size sbuf.size = sbuf.head ∧
            sbuf.flags &&& OVERWRITE_EN = 0)) :
    sbuf_put OVERWRITE_EN OVERRUN_CNT_EN sbuf data =
      (sbuf.ele_size,
       { ele_size := sbuf.ele_size
         size := sbuf.size
         head := if sbuf_next_ptr sbuf.tail sbuf.ele_size sbuf.size = sbuf.head
                 then sbuf_next_ptr sbuf.head sbuf.ele_size sbuf.size else sbuf.head
         tail := sbuf_next_ptr sbuf.tail sbuf.ele_size sbuf.size
         overrun_cnt := if sbuf_next_ptr sbuf.tail sbuf.ele_size sbuf.size = sbuf.head
                 then (sbuf.overrun_cnt + (sbuf.flags &&& OVERRUN_CNT_EN)) % 2 ^ 32
                 else sbuf.overrun_cnt
         flags := sbuf.flags
         buf := memcpy_s sbuf.buf sbuf.tail data sbuf.ele_size }) := by
  unfold sbuf_put
  simp only [h, if_false]
  by_cases hf : sbuf_next_ptr sbuf.tail sbuf.ele_size sbuf.size = sbuf.head <;> simp [hf]

/-- Helper: `memcpy_s` stores `data[i]` at offset `off + i` for `i < n`. -/
theorem memcpy_s_inside (mem : Nat → Nat) (off : Nat) (data : Nat → Nat) (n i : Nat)
    (hi : i < n) : memcpy_s mem off data n (off + i) = data i := by
  unfold memcpy_s
  have h1 : off ≤ off + i ∧ off + i < off + n := ⟨by omega, by omega⟩
  simp [h1]

/-- Helper: `memcpy_s` leaves every offset outside `[off, off + n)` alone. -/
theorem memcpy_s_outside (mem : Nat → Nat) (off : Nat) (data : Nat → Nat) (n j : Nat)
    (hj : j < off ∨ off + n ≤ j) : memcpy_s mem off data n j = mem j := by
  unfold memcpy_s
  have h1 : ¬ (off ≤ j ∧ j < off + n) := by omega
  simp [h1]

/-- C4: with `OVERWRITE_EN` set in `flags`, for every buffer state (full or not)
`sbuf_put` takes the write path: it stores the record's `ele_size` bytes at slot offset
`tail`, publishes `tail = sbuf_next_ptr(tail, ele_size, size)` and returns `ele_size`; so
the returned value is non-zero whenever `ele_size` is. -/
theorem sbuf_put_overwrite_never_dropped (OVERWRITE_EN OVERRUN_CNT_EN : Nat)
    (sbuf : shared_buf) (data : Nat → Nat)
    (hflag : sbuf.flags &&& OVERWRITE_EN ≠ 0) :
    (sbuf_put OVERWRITE_EN OVERRUN_CNT_EN sbuf data).1 = sbuf.ele_size ∧
    (∀ i, i < sbuf.ele_size →
      (sbuf_put OVERWRITE_EN OVERRUN_CNT_EN sbuf data).2.buf (sbuf.tail + i) = data i) ∧
    (sbuf_put OVERWRITE_EN OVERRUN_CNT_EN sbuf data).2.tail
      = sbuf_next_ptr sbuf.tail sbuf.ele_size sbuf.size ∧
    (0 < sbuf.ele_size → (sbuf_put OVERWRITE_EN OVERRUN_CNT_EN sbuf data).1 ≠ 0) := by
  have h : ¬ (sbuf_next_ptr sbuf.tail sbuf.ele_size sbuf.size = sbuf.head ∧
      sbuf.flags &&& OVERWRITE_EN = 0) := fun hc => hflag hc.2
  rw [sbuf_put_write_path OVERWRITE_EN OVERRUN_CNT_EN sbuf data h]
  refine ⟨rfl, ?_, rfl, ?_⟩
  · intro i hi
    exact memcpy_s_inside sbuf.buf sbuf.tail data sbuf.ele_size i hi
  · intro hpos
    exact Nat.pos_iff_ne_zero.mp hpos

/-- Witness for C4: the full buffer `full_buf_both_flags` with `OVERWRITE_EN = 2`. -/
theorem sbuf_put_overwrite_never_dropped_witness :
    full_buf_both_flags.flags &&& 2 ≠ 0 ∧
    (sbuf_put 2 1 full_buf_both_flags ramp_record).1 = full_buf_both_flags.ele_size :=
  ⟨by decide, (sbuf_put_overwrite_never_dropped 2 1 full_buf_both_flags ramp_record
      (by decide)).1⟩

/-- C5: with `OVERWRITE_EN` set, `sbuf_put` on a full buffer sets
`head = sbuf_next_ptr(head, ele_size, size)` and adds the masked value
`flags & OVERRUN_CNT_EN` to `overrun_cnt` in 32-bit arithmetic: nothing is added when the
masked value is 0, and when `OVERRUN_CNT_EN` is a single bit `2^b` that is set in `flags`
the amount added is `2^b` itself. -/
theorem sbuf_put_overwrite_full (OVERWRITE_EN OVERRUN_CNT_EN : Nat)
    (sbuf : shared_buf) (data : Nat → Nat)
    (hcnt : sbuf.overrun_cnt < 2 ^ 32)
    (hflag : sbuf.flags &&& OVERWRITE_EN ≠ 0)
    (hfull : sbuf_next_ptr sbuf.tail sbuf.ele_size sbuf.size = sbuf.head) :
    (sbuf_put OVERWRITE_EN OVERRUN_CNT_EN sbuf data).2.head
      = sbuf_next_ptr sbuf.head sbuf.ele_size sbuf.size ∧
    (sbuf_put OVERWRITE_EN OVERRUN_CNT_EN sbuf data).2.overrun_cnt
      = (sbuf.overrun_cnt + (sbuf.flags &&& OVERRUN_CNT_EN)) % 2 ^ 32 ∧
    (sbuf.flags &&& OVERRUN_CNT_EN = 0 →
      (sbuf_put OVERWRITE_EN OVERRUN_CNT_EN sbuf data).2.overrun_cnt = sbuf.overrun_cnt) ∧
    (∀ b, OVERRUN_CNT_EN = 2 ^ b → sbuf.flags &&& OVERRUN_CNT_EN ≠ 0 →
      (sbuf_put OVERWRITE_EN OVERRUN_CNT_EN sbuf data).2.overrun_cnt
        = (sbuf.overrun_cnt + 2 ^ b) % 2 ^ 32) := by
  have h : ¬ (sbuf_next_ptr sbuf.tail sbuf.ele_size sbuf.size = sbuf.head ∧
      sbuf.flags &&& OVERWRITE_EN = 0) := fun hc => hflag hc.2
  rw [sbuf_put_write_path OVERWRITE_EN OVERRUN_CNT_EN sbuf data h]
  simp only [hfull, if_true]
  refine ⟨trivial, trivial, ?_, ?_⟩
  · intro h0
    rw [h0, Nat.add_zero]
    exact Nat.mod_eq_of_lt hcnt
  · intro b hb hne
    have hand : sbuf.flags &&& OVERRUN_CNT_EN = 2 ^ b := by
      rw [hb, Nat.and_two_pow] at hne ⊢
      cases hbit : sbuf.flags.testBit b
      · simp [hbit] at hne
      · simp
    rw [hand]

/-- Witness for C5: `full_buf_both_flags` with `OVERWRITE_EN = 2`, `OVERRUN_CNT_EN = 1`:
`head` moves from 8 to 16 and `overrun_cnt` from 5 to 6. -/
theorem sbuf_put_overwrite_full_witness :
    (full_buf_both_flags.overrun_cnt < 2 ^ 32 ∧ full_buf_both_flags.flags &&& 2 ≠ 0 ∧
      sbuf_next_ptr full_buf_both_flags.tail full_buf_both_flags.ele_size
        full_buf_both_flags.size = full_buf_both_flags.head) ∧
    (sbuf_put 2 1 full_buf_both_flags ramp_record).2.head = 16 ∧
    (sbuf_put 2 1 full_buf_both_flags ramp_record).2.overrun_cnt = 6 :=
  ⟨by decide,
   (sbuf_put_overwrite_full 2 1 full_buf_both_flags ramp_record (by decide) (by decide)
      (by decide)).1,
   (sbuf_put_overwrite_full 2 1 full_buf_both_flags ramp_record (by decide) (by decide)
      (by decide)).2.1⟩

/-- C7: if `OVERWRITE_EN` is clear in `flags`, or the buffer is not full
(`sbuf_next_ptr(tail, ele_size, size) != head`), `sbuf_put` leaves `head` and
`overrun_cnt` unchanged. -/
theorem sbuf_put_head_unchanged (OVERWRITE_EN OVERRUN_CNT_EN : Nat)
    (sbuf : shared_buf) (data : Nat → Nat)
    (h : sbuf.flags &&& OVERWRITE_EN = 0 ∨
         sbuf_next_ptr sbuf.tail sbuf.ele_size sbuf.size ≠ sbuf.head) :
    (sbuf_put OVERWRITE_EN OVERRUN_CNT_EN sbuf data).2.head = sbuf.head ∧
    (sbuf_put OVERWRITE_EN OVERRUN_CNT_EN sbuf data).2.overrun_cnt = sbuf.overrun_cnt := by
  by_cases hfull : sbuf_next_ptr sbuf.tail sbuf.ele_size sbuf.size = sbuf.head
  · have hflag : sbuf.flags &&& OVERWRITE_EN = 0 := by
      rcases h with h | h
      · exact h
      · exact absurd hfull h
    have hp : sbuf_put OVERWRITE_EN OVERRUN_CNT_EN sbuf data = (0, sbuf) := by
      unfold sbuf_put
      simp [hflag, hfull]
    simp [hp]
  · have hw : ¬ (sbuf_next_ptr sbuf.tail sbuf.ele_size sbuf.size = sbuf.head ∧
        sbuf.flags &&& OVERWRITE_EN = 0) := fun hc => hfull hc.1
    rw [sbuf_put_write_path OVERWRITE_EN OVERRUN_CNT_EN sbuf data hw]
    simp [hfull]

/-- Witness for C7: a non-full buffer with both flags set keeps `head = 8` and
`overrun_cnt = 5` across a successful enqueue. -/
theorem sbuf_put_head_unchanged_witness :
    (({ full_buf_both_flags with tail := 24 } : shared_buf).flags &&& 2 = 0 ∨
      sbuf_next_ptr ({ full_buf_both_flags with tail := 24 } : shared_buf).tail
        ({ full_buf_both_flags with tail := 24 } : shared_buf).ele_size
        ({ full_buf_both_flags with tail := 24 } : shared_buf).size
        ≠ ({ full_buf_both_flags with tail := 24 } : shared_buf).head) ∧
    (sbuf_put 2 1 { full_buf_both_flags with tail := 24 } ramp_record).2.head = 8 ∧
    (sbuf_put 2 1 { full_buf_both_flags with tail := 24 } ramp_record).2.overrun_cnt = 5 :=
  ⟨by decide,
   sbuf_put_head_unchanged 2 1 { full_buf_both_flags with tail := 24 } ramp_record
     (by decide)⟩

/-! ## Lemmas on valid buffers -/

/-- Helper: two distinct multiples of `e` are at least `e` apart. -/
theorem aligned_gap (e a b : Nat) (ha : a % e = 0) (hb : b % e = 0) (hab : a < b) :
    a + e ≤ b := by
  obtain ⟨x, rfl⟩ := Nat.dvd_of_mod_eq_zero ha
  obtain ⟨y, rfl⟩ := Nat.dvd_of_mod_eq_zero hb
  have hxy : x < y := Nat.lt_of_mul_lt_mul_left hab
  calc e * x + e = e * (x + 1) := by rw [Nat.mul_succ]
    _ ≤ e * y := Nat.mul_le_mul_left e hxy

/-- Helper: on an aligned position below `size`, `sbuf_next_ptr` moves one slot up or wraps
to offset 0. -/
theorem sbuf_next_ptr_aligned (e size p : Nat) (h32 : size < 2 ^ 32)
    (hs : size % e = 0) (hp : p % e = 0) (hlt : p < size) :
    sbuf_next_ptr p e size = if p + e < size then p + e else 0 := by
  have hgap := aligned_gap e p size hp hs hlt
  rw [sbuf_next_ptr_of_no_wrap p e size (by omega)]
  split <;> omega

/-- Helper: the linear consequences of validity used by the ring arguments. -/
theorem sbuf_valid_gaps (s : shared_buf) (hv : sbuf_valid s) :
    s.head + s.ele_size ≤ s.size ∧ s.tail + s.ele_size ≤ s.size ∧
    (s.head < s.tail → s.head + s.ele_size ≤ s.tail) ∧
    (s.tail < s.head → s.tail + s.ele_size ≤ s.head) := by
  obtain ⟨_, _, hdiv, _, hh, ht, hha, hta⟩ := hv
  exact ⟨aligned_gap _ _ _ hha hdiv hh, aligned_gap _ _ _ hta hdiv ht,
    aligned_gap _ _ _ hha hta, aligned_gap _ _ _ hta hha⟩

/-- Helper: the position after an aligned position is again aligned and below `size`. -/
theorem sbuf_next_ptr_valid (e size p : Nat) (_he : 0 < e) (h32 : size < 2 ^ 32)
    (hs : size % e = 0) (hp : p % e = 0) (hlt : p < size) :
    sbuf_next_ptr p e size < size ∧ sbuf_next_ptr p e size % e = 0 := by
  rw [sbuf_next_ptr_aligned e size p h32 hs hp hlt]
  split
  · refine ⟨by assumption, ?_⟩
    rw [Nat.add_mod_right]
    exact hp
  · exact ⟨by omega, Nat.zero_mod e⟩

/-- Helper: a valid buffer is full exactly when `ele_size` more bytes would fill it. -/
theorem sbuf_full_iff_used (s : shared_buf) (hv : sbuf_valid s) :
    sbuf_next_ptr s.tail s.ele_size s.size = s.head ↔ sbuf_used s + s.ele_size = s.size := by
  obtain ⟨g1, g2, g3, g4⟩ := sbuf_valid_gaps s hv
  obtain ⟨he, _, hdiv, h32, hh, ht, hha, hta⟩ := hv
  rw [sbuf_next_ptr_aligned s.ele_size s.size s.tail h32 hdiv hta ht]
  unfold sbuf_used
  split <;> split <;> omega

/-- Helper: the buffer after `sbuf_put` when the buffer is not full. -/
theorem sbuf_put_not_full (OVERWRITE_EN OVERRUN_CNT_EN : Nat) (s : shared_buf)
    (data : Nat → Nat) (h : sbuf_next_ptr s.tail s.ele_size s.size ≠ s.head) :
    sbuf_put OVERWRITE_EN OVERRUN_CNT_EN s data =
      (s.ele_size,
       { s with tail := sbuf_next_ptr s.tail s.ele_size s.size
                buf := memcpy_s s.buf s.tail data s.ele_size }) := by
  rw [sbuf_put_write_path OVERWRITE_EN OVERRUN_CNT_EN s data (fun hc => h hc.1)]
  simp [h]

/-- Helper: reading back the slot just written gives the record. -/
theorem read_slot_memcpy_s_same (mem : Nat → Nat) (off : Nat) (data : Nat → Nat) (n : Nat) :
    read_slot (memcpy_s mem off data n) off n = record_bytes data n := by
  unfold read_slot record_bytes
  apply List.map_congr_left
  intro i hi
  exact memcpy_s_inside mem off data n i (List.mem_range.mp hi)

/-- Helper: a slot disjoint from the written one reads as before. -/
theorem read_slot_memcpy_s_disjoint (mem : Nat → Nat) (off : Nat) (data : Nat → Nat)
    (n p : Nat) (h : p + n ≤ off ∨ off + n ≤ p) :
    read_slot (memcpy_s mem off data n) p n = read_slot mem p n := by
  unfold read_slot
  apply List.map_congr_left
  intro i hi
  have hi2 : i < n := List.mem_range.mp hi
  exact memcpy_s_outside mem off data n (p + i) (by omega)

/-- Helper: draining an empty buffer yields nothing, with any fuel. -/
theorem sbuf_drain_empty (fuel : Nat) (s : shared_buf) (h : s.head = s.tail) :
    sbuf_drain fuel s = some [] := by
  cases fuel <;> simp [sbuf_drain, h]

/-- Helper: the drain loop does not look at `overrun_cnt`. -/
theorem sbuf_drain_overrun_cnt (c : Nat) : ∀ (fuel : Nat) (s : shared_buf),
    sbuf_drain fuel { s with overrun_cnt := c } = sbuf_drain fuel s := by
  intro fuel
  induction fuel with
  | zero => intro s; simp [sbuf_drain]
  | succ f ih =>
    intro s
    simp only [sbuf_drain]
    by_cases h : s.head = s.tail
    · simp [h]
    · simp only [h, if_false]
      have := ih { s with head := sbuf_next_ptr s.head s.ele_size s.size }
      rw [← this]

/-- Helper: more fuel does not change a completed drain. -/
theorem sbuf_drain_mono : ∀ (fuel : Nat) (s : shared_buf) (l : List (List Nat)),
    sbuf_drain fuel s = some l → ∀ k, sbuf_drain (fuel + k) s = some l := by
  intro fuel
  induction fuel with
  | zero =>
    intro s l h k
    by_cases he : s.head = s.tail
    · rw [sbuf_drain_empty _ s he] at h ⊢
      exact h
    · simp [sbuf_drain, he] at h
  | succ f ih =>
    intro s l h k
    by_cases he : s.head = s.tail
    · rw [sbuf_drain_empty _ s he] at h ⊢
      exact h
    · have hk : f + 1 + k = (f + k) + 1 := by omega
      rw [hk]
      simp only [sbuf_drain, he, if_false] at h ⊢
      cases hd : sbuf_drain f { s with head := sbuf_next_ptr s.head s.ele_size s.size } with
      | none => rw [hd] at h; simp at h
      | some l' =>
        rw [hd] at h
        rw [ih _ l' hd k]
        exact h

/-- Helper: enqueueing into a valid buffer that is not full appends the record to what a
drain yields. -/
theorem sbuf_drain_push (data : Nat → Nat) : ∀ (fuel : Nat) (s : shared_buf)
    (l : List (List Nat)), sbuf_valid s → sbuf_used s + s.ele_size < s.size →
    sbuf_drain fuel s = some l →
    sbuf_drain (fuel + 1)
      { s with tail := sbuf_next_ptr s.tail s.ele_size s.size
               buf := memcpy_s s.buf s.tail data s.ele_size }
      = some (l ++ [record_bytes data s.ele_size]) := by
  intro fuel
  induction fuel with
  | zero =>
    intro s l hv hu h
    obtain ⟨g1, g2, g3, g4⟩ := sbuf_valid_gaps s hv
    obtain ⟨he, _, hdiv, h32, hh, ht, hha, hta⟩ := hv
    by_cases heq : s.head = s.tail
    · simp only [sbuf_drain, heq, if_true, Option.some.injEq] at h
      subst h
      have hnt := sbuf_next_ptr_aligned s.ele_size s.size s.tail h32 hdiv hta ht
      have hne : s.tail ≠ sbuf_next_ptr s.tail s.ele_size s.size := by
        rw [hnt]
        unfold sbuf_used at hu
        split <;> split at hu <;> omega
      simp only [sbuf_drain, heq, hne, if_false, if_true, Option.map_some',
        read_slot_memcpy_s_same, List.nil_append]
    · simp [sbuf_drain, heq] at h
  | succ f ih =>
    intro s l hv hu h
    have hv0 := hv
    obtain ⟨g1, g2, g3, g4⟩ := sbuf_valid_gaps s hv
    obtain ⟨he, hsz, hdiv, h32, hh, ht, hha, hta⟩ := hv
    have hnt := sbuf_next_ptr_aligned s.ele_size s.size s.tail h32 hdiv hta ht
    have hnh := sbuf_next_ptr_aligned s.ele_size s.size s.head h32 hdiv hha hh
    by_cases heq : s.head = s.tail
    · rw [sbuf_drain_empty _ s heq] at h
      simp only [Option.some.injEq] at h
      subst h
      have hne : s.tail ≠ sbuf_next_ptr s.tail s.ele_size s.size := by
        rw [hnt]
        unfold sbuf_used at hu
        split <;> split at hu <;> omega
      rw [sbuf_drain]
      simp only [heq, hne, if_false]
      rw [sbuf_drain_empty _ _ rfl]
      simp only [Option.map_some', read_slot_memcpy_s_same, List.nil_append]
    · rw [sbuf_drain] at h
      simp only [heq, if_false] at h
      cases hd : sbuf_drain f { s with head := sbuf_next_ptr s.head s.ele_size s.size } with
      | none => rw [hd] at h; simp at h
      | some l' =>
        rw [hd] at h
        simp only [Option.map_some', Option.some.injEq] at h
        subst h
        have hne : s.head ≠ sbuf_next_ptr s.tail s.ele_size s.size := by
          rw [hnt]
          unfold sbuf_used at hu
          split <;> split at hu <;> omega
        have hvn := sbuf_next_ptr_valid s.ele_size s.size s.head he h32 hdiv hha hh
        have hv' : sbuf_valid { s with head := sbuf_next_ptr s.head s.ele_size s.size } :=
          ⟨he, hsz, hdiv, h32, hvn.1, ht, hvn.2, hta⟩
        have hu' : sbuf_used { s with head := sbuf_next_ptr s.head s.ele_size s.size }
            + s.ele_size < s.size := by
          unfold sbuf_used at hu ⊢
          simp only
          rw [hnh]
          split at hu <;> split <;> split <;> omega
        have hrec := ih { s with head := sbuf_next_ptr s.head s.ele_size s.size } l' hv' hu' hd
        rw [sbuf_drain]
        simp only [hne, if_false]
        simp only at hrec
        rw [hrec]
        have hdis : s.head + s.ele_size ≤ s.tail ∨ s.tail + s.ele_size ≤ s.head := by
          rcases Nat.lt_or_gt_of_ne heq with hlt | hgt
          · exact Or.inl (g3 hlt)
          · exact Or.inr (g4 hgt)
        simp only [Option.map_some', read_slot_memcpy_s_disjoint _ _ _ _ _ hdis,
          List.cons_append]

/-- Helper: a completed drain of a valid buffer yields `sbuf_used / ele_size` records. -/
theorem sbuf_drain_length : ∀ (fuel : Nat) (s : shared_buf) (l : List (List Nat)),
    sbuf_valid s → sbuf_drain fuel s = some l → l.length * s.ele_size = sbuf_used s := by
  intro fuel
  induction fuel with
  | zero =>
    intro s l hv h
    by_cases heq : s.head = s.tail
    · simp only [sbuf_drain, heq, if_true, Option.some.injEq] at h
      subst h
      simp [sbuf_used, heq]
    · simp [sbuf_drain, heq] at h
  | succ f ih =>
    intro s l hv h
    by_cases heq : s.head = s.tail
    · rw [sbuf_drain_empty _ s heq] at h
      simp only [Option.some.injEq] at h
      subst h
      simp [sbuf_used, heq]
    · obtain ⟨g1, g2, g3, g4⟩ := sbuf_valid_gaps s hv
      obtain ⟨he, hsz, hdiv, h32, hh, ht, hha, hta⟩ := hv
      have hnh := sbuf_next_ptr_aligned s.ele_size s.size s.head h32 hdiv hha hh
      have hvn := sbuf_next_ptr_valid s.ele_size s.size s.head he h32 hdiv hha hh
      rw [sbuf_drain] at h
      simp only [heq, if_false] at h
      cases hd : sbuf_drain f { s with head := sbuf_next_ptr s.head s.ele_size s.size } with
      | none => rw [hd] at h; simp at h
      | some l' =>
        rw [hd] at h
        simp only [Option.map_some', Option.some.injEq] at h
        subst h
        have hrec := ih { s with head := sbuf_next_ptr s.head s.ele_size s.size } l'
          ⟨he, hsz, hdiv, h32, hvn.1, ht, hvn.2, hta⟩ hd
        simp only [List.length_cons, Nat.succ_mul]
        simp only at hrec
        rw [hrec]
        unfold sbuf_used
        simp only
        rw [hnh]
        split <;> split <;> split <;> omega

/-- Helper: the drain of a valid buffer completes as soon as the fuel covers the resident
elements; `size / ele_size − 1` iterations always suffice. -/
theorem sbuf_drain_total : ∀ (fuel : Nat) (s : shared_buf),
    sbuf_valid s → sbuf_used s ≤ fuel * s.ele_size → ∃ l, sbuf_drain fuel s = some l := by
  intro fuel
  induction fuel with
  | zero =>
    intro s hv hu
    obtain ⟨g1, g2, g3, g4⟩ := sbuf_valid_gaps s hv
    have heq : s.head = s.tail := by
      unfold sbuf_used at hu
      have := hv.1
      split at hu <;> omega
    exact ⟨[], sbuf_drain_empty 0 s heq⟩
  | succ f ih =>
    intro s hv hu
    by_cases heq : s.head = s.tail
    · exact ⟨[], sbuf_drain_empty _ s heq⟩
    · obtain ⟨g1, g2, g3, g4⟩ := sbuf_valid_gaps s hv
      obtain ⟨he, hsz, hdiv, h32, hh, ht, hha, hta⟩ := hv
      have hnh := sbuf_next_ptr_aligned s.ele_size s.size s.head h32 hdiv hha hh
      have hvn := sbuf_next_ptr_valid s.ele_size s.size s.head he h32 hdiv hha hh
      have hu' : sbuf_used { s with head := sbuf_next_ptr s.head s.ele_size s.size }
          ≤ f * s.ele_size := by
        rw [Nat.succ_mul] at hu
        unfold sbuf_used at hu ⊢
        simp only
        rw [hnh]
        split at hu <;> split <;> split <;> omega
      obtain ⟨l, hl⟩ := ih { s with head := sbuf_next_ptr s.head s.ele_size s.size }
        ⟨he, hsz, hdiv, h32, hvn.1, ht, hvn.2, hta⟩ hu'
      refine ⟨read_slot s.buf s.head s.ele_size :: l, ?_⟩
      rw [sbuf_drain]
      simp only [heq, if_false, hl, Option.map_some']

/-- Helper: a full buffer with `OVERWRITE_EN` clear is returned as it is, with value 0. -/
theorem sbuf_put_full_eq (OVERWRITE_EN OVERRUN_CNT_EN : Nat) (s : shared_buf)
    (data : Nat → Nat) (hflag : s.flags &&& OVERWRITE_EN = 0)
    (hfull : sbuf_next_ptr s.tail s.ele_size s.size = s.head) :
    sbuf_put OVERWRITE_EN OVERRUN_CNT_EN s data = (0, s) := by
  unfold sbuf_put
  simp [hflag, hfull]

/-- Helper: every enqueue into a full buffer with `OVERWRITE_EN` clear is dropped. -/
theorem sbuf_put_all_full (OVERWRITE_EN OVERRUN_CNT_EN : Nat) (s : shared_buf)
    (hflag : s.flags &&& OVERWRITE_EN = 0)
    (hfull : sbuf_next_ptr s.tail s.ele_size s.size = s.head) :
    ∀ ds : List (Nat → Nat),
      sbuf_put_all OVERWRITE_EN OVERRUN_CNT_EN s ds = (List.replicate ds.length 0, s) := by
  intro ds
  induction ds with
  | nil => rfl
  | cons d ds ih =>
    simp only [sbuf_put_all, sbuf_put_full_eq OVERWRITE_EN OVERRUN_CNT_EN s d hflag hfull, ih,
      List.length_cons, List.replicate_succ]

/-- Helper: `sbuf_put_all` over a concatenation runs the second list on the buffer the
first list leaves. -/
theorem sbuf_put_all_append (OVERWRITE_EN OVERRUN_CNT_EN : Nat) :
    ∀ (as bs : List (Nat → Nat)) (s : shared_buf),
      sbuf_put_all OVERWRITE_EN OVERRUN_CNT_EN s (as ++ bs) =
        ((sbuf_put_all OVERWRITE_EN OVERRUN_CNT_EN s as).1 ++
          (sbuf_put_all OVERWRITE_EN OVERRUN_CNT_EN
            (sbuf_put_all OVERWRITE_EN OVERRUN_CNT_EN s as).2 bs).1,
         (sbuf_put_all OVERWRITE_EN OVERRUN_CNT_EN
            (sbuf_put_all OVERWRITE_EN OVERRUN_CNT_EN s as).2 bs).2) := by
  intro as
  induction as with
  | nil => intro bs s; rfl
  | cons a as ih =>
    intro bs s
    have h := ih bs (sbuf_put OVERWRITE_EN OVERRUN_CNT_EN s a).2
    rw [List.cons_append]
    simp only [sbuf_put_all]
    rw [h]
    rfl

/-- Helper: while there is room, every enqueue succeeds, only `tail` and the slot storage
change, and a drain afterwards yields the earlier content followed by the new records. -/
theorem sbuf_put_all_room (OVERWRITE_EN OVERRUN_CNT_EN : Nat) :
    ∀ (ds : List (Nat → Nat)) (s : shared_buf) (fuel : Nat) (l : List (List Nat)),
      sbuf_valid s → sbuf_used s + ds.length * s.ele_size < s.size →
      sbuf_drain fuel s = some l →
      (sbuf_put_all OVERWRITE_EN OVERRUN_CNT_EN s ds).1 = List.replicate ds.length s.ele_size ∧
      sbuf_valid (sbuf_put_all OVERWRITE_EN OVERRUN_CNT_EN s ds).2 ∧
      (sbuf_put_all OVERWRITE_EN OVERRUN_CNT_EN s ds).2.head = s.head ∧
      (sbuf_put_all OVERWRITE_EN OVERRUN_CNT_EN s ds).2.ele_size = s.ele_size ∧
      (sbuf_put_all OVERWRITE_EN OVERRUN_CNT_EN s ds).2.size = s.size ∧
      (sbuf_put_all OVERWRITE_EN OVERRUN_CNT_EN s ds).2.flags = s.flags ∧
      (sbuf_put_all OVERWRITE_EN OVERRUN_CNT_EN s ds).2.overrun_cnt = s.overrun_cnt ∧
      sbuf_used (sbuf_put_all OVERWRITE_EN OVERRUN_CNT_EN s ds).2
        = sbuf_used s + ds.length * s.ele_size ∧
      sbuf_drain (fuel + ds.length) (sbuf_put_all OVERWRITE_EN OVERRUN_CNT_EN s ds).2
        = some (l ++ ds.map fun d => record_bytes d s.ele_size) := by
  intro ds
  induction ds with
  | nil =>
    intro s fuel l hv _ hd
    simp [sbuf_put_all, hv, hd]
  | cons d ds ih =>
    intro s fuel l hv hu hd
    have hv0 := hv
    simp only [List.length_cons, Nat.succ_mul] at hu
    have hnf : sbuf_next_ptr s.tail s.ele_size s.size ≠ s.head := by
      intro hc
      have := (sbuf_full_iff_used s hv).mp hc
      omega
    have hpush := sbuf_drain_push d fuel s l hv (by omega) hd
    obtain ⟨g1, g2, g3, g4⟩ := sbuf_valid_gaps s hv
    obtain ⟨he, hsz, hdiv, h32, hh, ht, hha, hta⟩ := hv
    have hnt := sbuf_next_ptr_aligned s.ele_size s.size s.tail h32 hdiv hta ht
    have hvn := sbuf_next_ptr_valid s.ele_size s.size s.tail he h32 hdiv hta ht
    have hfu := sbuf_full_iff_used s hv0
    have hu1 : sbuf_used { s with tail := sbuf_next_ptr s.tail s.ele_size s.size
                                  buf := memcpy_s s.buf s.tail d s.ele_size }
        = sbuf_used s + s.ele_size := by
      rw [hnt] at hnf
      unfold sbuf_used at hu ⊢
      simp only
      rw [hnt]
      split at hu <;> split <;> split <;> omega
    have hrec := ih { s with tail := sbuf_next_ptr s.tail s.ele_size s.size
                             buf := memcpy_s s.buf s.tail d s.ele_size } (fuel + 1)
      (l ++ [record_bytes d s.ele_size]) ⟨he, hsz, hdiv, h32, hh, hvn.1, hha, hvn.2⟩
      (by rw [hu1]; simp only; omega) hpush
    simp only [sbuf_put_all, sbuf_put_not_full OVERWRITE_EN OVERRUN_CNT_EN s d hnf,
      List.length_cons, List.replicate_succ, List.map_cons, Nat.succ_mul]
    simp only at hrec
    obtain ⟨r1, r2, r3, r4, r5, r6, r7, r8, r9⟩ := hrec
    refine ⟨by rw [r1], r2, r3, r4, r5, r6, r7, ?_, ?_⟩
    · rw [r8, hu1]; omega
    · have hf : fuel + (ds.length + 1) = fuel + 1 + ds.length := by omega
      rw [hf, r9, List.append_assoc]
      rfl

/-- Helper: `k + 1` slots of a valid buffer take at most `size` bytes. -/
theorem sbuf_slots_room (s : shared_buf) (hv : sbuf_valid s) (k : Nat)
    (hk : k + 1 ≤ s.size / s.ele_size) : k * s.ele_size + s.ele_size ≤ s.size := by
  have hmul : s.size / s.ele_size * s.ele_size = s.size :=
    Nat.div_mul_cancel (Nat.dvd_of_mod_eq_zero hv.2.2.1)
  have h := Nat.mul_le_mul_right s.ele_size hk
  rw [hmul, Nat.succ_mul] at h
  exact h

/-- Helper: a valid buffer has at least one slot. -/
theorem sbuf_slots_pos (s : shared_buf) (hv : sbuf_valid s) : 1 ≤ s.size / s.ele_size := by
  obtain ⟨he, hsz, hdiv, _⟩ := hv
  exact Nat.div_pos (Nat.le_of_dvd hsz (Nat.dvd_of_mod_eq_zero hdiv)) he

/-- Helper: from an empty valid buffer with `OVERWRITE_EN` clear, the first
`size / ele_size − 1` enqueues return `ele_size`, the later ones return 0, and the buffer
after all of them is the buffer after the first `size / ele_size − 1`. -/
theorem sbuf_put_all_from_empty (OVERWRITE_EN OVERRUN_CNT_EN : Nat) (s : shared_buf)
    (ds : List (Nat → Nat)) (hv : sbuf_valid s) (hempty : s.head = s.tail)
    (hflag : s.flags &&& OVERWRITE_EN = 0) :
    sbuf_put_all OVERWRITE_EN OVERRUN_CNT_EN s ds =
      (List.replicate (min ds.length (s.size / s.ele_size - 1)) s.ele_size ++
         List.replicate (ds.length - (s.size / s.ele_size - 1)) 0,
       (sbuf_put_all OVERWRITE_EN OVERRUN_CNT_EN s
         (ds.take (s.size / s.ele_size - 1))).2) := by
  have hn := sbuf_slots_pos s hv
  have hu0 : sbuf_used s = 0 := by simp [sbuf_used, hempty]
  have hlen : (ds.take (s.size / s.ele_size - 1)).length
      = min ds.length (s.size / s.ele_size - 1) := by
    rw [List.length_take, Nat.min_comm]
  have hroom := sbuf_slots_room s hv (ds.take (s.size / s.ele_size - 1)).length
    (by rw [hlen]; omega)
  obtain ⟨r1, r2, r3, r4, r5, r6, _, r8, _⟩ :=
    sbuf_put_all_room OVERWRITE_EN OVERRUN_CNT_EN (ds.take (s.size / s.ele_size - 1)) s 0 []
      hv (by rw [hu0]; have := hv.1; omega) (sbuf_drain_empty 0 s hempty)
  conv_lhs => rw [← List.take_append_drop (s.size / s.ele_size - 1) ds]
  rw [sbuf_put_all_append, r1, hlen]
  by_cases hk : s.size / s.ele_size - 1 ≤ ds.length
  · have hfull : sbuf_next_ptr
          (sbuf_put_all OVERWRITE_EN OVERRUN_CNT_EN s (ds.take (s.size / s.ele_size - 1))).2.tail
          (sbuf_put_all OVERWRITE_EN OVERRUN_CNT_EN s
            (ds.take (s.size / s.ele_size - 1))).2.ele_size
          (sbuf_put_all OVERWRITE_EN OVERRUN_CNT_EN s (ds.take (s.size / s.ele_size - 1))).2.size
        = (sbuf_put_all OVERWRITE_EN OVERRUN_CNT_EN s
            (ds.take (s.size / s.ele_size - 1))).2.head := by
      rw [sbuf_full_iff_used _ r2, r8, r4, r5, hu0, hlen, Nat.min_eq_right hk]
      have h := sbuf_slots_room s hv (s.size / s.ele_size - 1) (by omega)
      have hmul : s.size / s.ele_size * s.ele_size = s.size :=
        Nat.div_mul_cancel (Nat.dvd_of_mod_eq_zero hv.2.2.1)
      have hsplit : s.size / s.ele_size = (s.size / s.ele_size - 1) + 1 := by omega
      rw [hsplit, Nat.succ_mul] at hmul
      omega
    rw [sbuf_put_all_full OVERWRITE_EN OVERRUN_CNT_EN _ (by rw [r6]; exact hflag) hfull,
      List.length_drop]
  · have hdrop : ds.drop (s.size / s.ele_size - 1) = [] :=
      List.drop_eq_nil_of_le (by omega)
    have hz : ds.length - (s.size / s.ele_size - 1) = 0 := by omega
    rw [hdrop, hz]
    rfl

/-! ## Theorems: sequences of `sbuf_put` calls -/

/-- C2: on a valid buffer with `n = size / ele_size` slots that starts empty
(`head = tail = 0`) with `OVERWRITE_EN` clear, `k` consecutive `sbuf_put` calls store exactly
`min(k, n − 1)` elements: the first `n − 1` calls return `ele_size`, every later call returns
0, the final `head` is 0 and the final `tail` is `min(k, n − 1) * ele_size`, a drain yields
the first `min(k, n − 1)` records, and once `n − 1` calls have been made any further call
returns 0 and leaves the buffer as it is. -/
theorem sbuf_put_all_no_overwrite (OVERWRITE_EN OVERRUN_CNT_EN : Nat) (s : shared_buf)
    (ds : List (Nat → Nat)) (hv : sbuf_valid s) (hhead : s.head = 0) (htail : s.tail = 0)
    (hflag : s.flags &&& OVERWRITE_EN = 0) :
    (sbuf_put_all OVERWRITE_EN OVERRUN_CNT_EN s ds).1 =
      List.replicate (min ds.length (s.size / s.ele_size - 1)) s.ele_size ++
        List.replicate (ds.length - (s.size / s.ele_size - 1)) 0 ∧
    (sbuf_put_all OVERWRITE_EN OVERRUN_CNT_EN s ds).2.head = 0 ∧
    (sbuf_put_all OVERWRITE_EN OVERRUN_CNT_EN s ds).2.tail
      = min ds.length (s.size / s.ele_size - 1) * s.ele_size ∧
    (∀ fuel, s.size / s.ele_size - 1 ≤ fuel →
      sbuf_drain fuel (sbuf_put_all OVERWRITE_EN OVERRUN_CNT_EN s ds).2
        = some ((ds.take (s.size / s.ele_size - 1)).map fun d => record_bytes d s.ele_size)) ∧
    (s.size / s.ele_size - 1 ≤ ds.length → ∀ d,
      sbuf_put OVERWRITE_EN OVERRUN_CNT_EN (sbuf_put_all OVERWRITE_EN OVERRUN_CNT_EN s ds).2 d
        = (0, (sbuf_put_all OVERWRITE_EN OVERRUN_CNT_EN s ds).2)) := by
  have hempty : s.head = s.tail := by rw [hhead, htail]
  have hn := sbuf_slots_pos s hv
  have hu0 : sbuf_used s = 0 := by simp [sbuf_used, hempty]
  have hlen : (ds.take (s.size / s.ele_size - 1)).length
      = min ds.length (s.size / s.ele_size - 1) := by
    rw [List.length_take, Nat.min_comm]
  have hroom := sbuf_slots_room s hv (ds.take (s.size / s.ele_size - 1)).length
    (by rw [hlen]; omega)
  obtain ⟨_, r2, r3, r4, r5, r6, _, r8, r9⟩ :=
    sbuf_put_all_room OVERWRITE_EN OVERRUN_CNT_EN (ds.take (s.size / s.ele_size - 1)) s 0 []
      hv (by rw [hu0]; have := hv.1; omega) (sbuf_drain_empty 0 s hempty)
  rw [sbuf_put_all_from_empty OVERWRITE_EN OVERRUN_CNT_EN s ds hv hempty hflag]
  simp only
  have htl : (sbuf_put_all OVERWRITE_EN OVERRUN_CNT_EN s
      (ds.take (s.size / s.ele_size - 1))).2.tail
      = min ds.length (s.size / s.ele_size - 1) * s.ele_size := by
    have h8 := r8
    rw [hu0, hlen, Nat.zero_add] at h8
    unfold sbuf_used at h8
    rw [r3, hhead] at h8
    simp only [Nat.zero_le, if_true, Nat.sub_zero] at h8
    exact h8
  refine ⟨trivial, by rw [r3, hhead], htl, ?_, ?_⟩
  · intro fuel hfuel
    have hmono := sbuf_drain_mono _ _ _ r9
      (fuel - (0 + (ds.take (s.size / s.ele_size - 1)).length))
    have hf : 0 + (ds.take (s.size / s.ele_size - 1)).length
        + (fuel - (0 + (ds.take (s.size / s.ele_size - 1)).length)) = fuel := by
      rw [hlen]; omega
    rw [hf] at hmono
    rw [hmono, List.nil_append]
  · intro hk d
    apply sbuf_put_full_eq
    · rw [r6]; exact hflag
    · rw [sbuf_full_iff_used _ r2, r8, r4, r5, hu0, hlen, Nat.min_eq_right hk]
      have hmul : s.size / s.ele_size * s.ele_size = s.size :=
        Nat.div_mul_cancel (Nat.dvd_of_mod_eq_zero hv.2.2.1)
      have hsplit : s.size / s.ele_size = (s.size / s.ele_size - 1) + 1 := by omega
      rw [hsplit, Nat.succ_mul] at hmul
      omega

/-- Witness for C2: `ele_size = 8`, `size = 32`: three enqueues succeed, the fourth returns 0
and leaves `head = 0`, `tail = 24` as they were after the third. -/
theorem sbuf_put_all_no_overwrite_witness :
    (sbuf_valid empty_buf_8_32 ∧ empty_buf_8_32.head = 0 ∧ empty_buf_8_32.tail = 0 ∧
      empty_buf_8_32.flags &&& 2 = 0) ∧
    (sbuf_put_all 2 1 empty_buf_8_32
      [const_record 1, const_record 2, const_record 3, const_record 4]).1 = [8, 8, 8, 0] ∧
    (sbuf_put_all 2 1 empty_buf_8_32
      [const_record 1, const_record 2, const_record 3, const_record 4]).2.head = 0 ∧
    (sbuf_put_all 2 1 empty_buf_8_32
      [const_record 1, const_record 2, const_record 3, const_record 4]).2.tail = 24 ∧
    (sbuf_put_all 2 1 empty_buf_8_32
      [const_record 1, const_record 2, const_record 3]).2.tail = 24 :=
  ⟨by decide,
   (sbuf_put_all_no_overwrite 2 1 empty_buf_8_32
      [const_record 1, const_record 2, const_record 3, const_record 4]
      (by decide) (by decide) (by decide) (by decide)).1,
   (sbuf_put_all_no_overwrite 2 1 empty_buf_8_32
      [const_record 1, const_record 2, const_record 3, const_record 4]
      (by decide) (by decide) (by decide) (by decide)).2.1,
   (sbuf_put_all_no_overwrite 2 1 empty_buf_8_32
      [const_record 1, const_record 2, const_record 3, const_record 4]
      (by decide) (by decide) (by decide) (by decide)).2.2.1,
   by decide⟩

/-- C3: on a valid buffer that starts empty (`head = tail`), for every list of `N` records
with `N < size / ele_size − 1`, enqueueing them in order with `sbuf_put` succeeds every time,
and the drain loop then terminates (any fuel of at least `N` suffices) and yields exactly
those `N` records, in enqueue order, each with its `ele_size` bytes unchanged. -/
theorem sbuf_put_all_drain_order (OVERWRITE_EN OVERRUN_CNT_EN : Nat) (s : shared_buf)
    (ds : List (Nat → Nat)) (hv : sbuf_valid s) (hempty : s.head = s.tail)
    (hN : ds.length < s.size / s.ele_size - 1) :
    (sbuf_put_all OVERWRITE_EN OVERRUN_CNT_EN s ds).1 = List.replicate ds.length s.ele_size ∧
    ∀ fuel, ds.length ≤ fuel →
      sbuf_drain fuel (sbuf_put_all OVERWRITE_EN OVERRUN_CNT_EN s ds).2
        = some (ds.map fun d => record_bytes d s.ele_size) := by
  have hu0 : sbuf_used s = 0 := by simp [sbuf_used, hempty]
  have hroom := sbuf_slots_room s hv ds.length (by omega)
  obtain ⟨r1, _, _, _, _, _, _, _, r9⟩ :=
    sbuf_put_all_room OVERWRITE_EN OVERRUN_CNT_EN ds s 0 []
      hv (by rw [hu0]; have := hv.1; omega) (sbuf_drain_empty 0 s hempty)
  refine ⟨r1, ?_⟩
  intro fuel hfuel
  have hmono := sbuf_drain_mono _ _ _ r9 (fuel - (0 + ds.length))
  have hf : 0 + ds.length + (fuel - (0 + ds.length)) = fuel := by omega
  rw [hf] at hmono
  rw [hmono, List.nil_append]

/-- Witness for C3: two records into an empty 4-slot buffer of 8-byte elements come back in
order. -/
theorem sbuf_put_all_drain_order_witness :
    (sbuf_valid empty_buf_8_32 ∧ empty_buf_8_32.head = empty_buf_8_32.tail ∧
      [ramp_record, const_record 7].length < empty_buf_8_32.size / empty_buf_8_32.ele_size - 1) ∧
    sbuf_drain 2 (sbuf_put_all 2 1 empty_buf_8_32 [ramp_record, const_record 7]).2
      = some [[0, 1, 2, 3, 4, 5, 6, 7], [7, 7, 7, 7, 7, 7, 7, 7]] :=
  ⟨by decide,
   (sbuf_put_all_drain_order 2 1 empty_buf_8_32 [ramp_record, const_record 7]
      (by decide) (by decide) (by decide)).2 2 (by decide)⟩

/-- C6: on a valid buffer with `n = size / ele_size >= 2` slots and `OVERWRITE_EN` set that
is full and whose drain yields `e_1 .. e_(n-1)` (the list `es`, necessarily of length
`n − 1`), after `sbuf_put(r)` the buffer is valid and again full with `head != tail`, and a
drain from the new `head` yields `e_2, .., e_(n-1), r`: again `n − 1` elements, the oldest
one gone and the new record last. -/
theorem sbuf_put_overwrite_evicts_oldest (OVERWRITE_EN OVERRUN_CNT_EN : Nat)
    (s : shared_buf) (r : Nat → Nat) (es : List (List Nat)) (fuel : Nat)
    (hv : sbuf_valid s) (hn : 2 ≤ s.size / s.ele_size)
    (hflag : s.flags &&& OVERWRITE_EN ≠ 0)
    (hfull : sbuf_next_ptr s.tail s.ele_size s.size = s.head)
    (hes : sbuf_drain fuel s = some es) :
    es.length = s.size / s.ele_size - 1 ∧
    sbuf_valid (sbuf_put OVERWRITE_EN OVERRUN_CNT_EN s r).2 ∧
    sbuf_next_ptr (sbuf_put OVERWRITE_EN OVERRUN_CNT_EN s r).2.tail
        (sbuf_put OVERWRITE_EN OVERRUN_CNT_EN s r).2.ele_size
        (sbuf_put OVERWRITE_EN OVERRUN_CNT_EN s r).2.size
      = (sbuf_put OVERWRITE_EN OVERRUN_CNT_EN s r).2.head ∧
    (sbuf_put OVERWRITE_EN OVERRUN_CNT_EN s r).2.head
      ≠ (sbuf_put OVERWRITE_EN OVERRUN_CNT_EN s r).2.tail ∧
    sbuf_drain fuel (sbuf_put OVERWRITE_EN OVERRUN_CNT_EN s r).2
      = some (es.tail ++ [record_bytes r s.ele_size]) ∧
    (es.tail ++ [record_bytes r s.ele_size]).length = s.size / s.ele_size - 1 := by
  have hv0 := hv
  have hmul : s.size / s.ele_size * s.ele_size = s.size :=
    Nat.div_mul_cancel (Nat.dvd_of_mod_eq_zero hv.2.2.1)
  have h2 := sbuf_slots_room s hv 1 (by omega)
  have hused := (sbuf_full_iff_used s hv).mp hfull
  have hlen := sbuf_drain_length fuel s es hv hes
  obtain ⟨g1, g2, g3, g4⟩ := sbuf_valid_gaps s hv
  obtain ⟨he, hsz, hdiv, h32, hh, ht, hha, hta⟩ := hv
  have hnt := sbuf_next_ptr_aligned s.ele_size s.size s.tail h32 hdiv hta ht
  have hnh := sbuf_next_ptr_aligned s.ele_size s.size s.head h32 hdiv hha hh
  have hvn := sbuf_next_ptr_valid s.ele_size s.size s.head he h32 hdiv hha hh
  -- the drained list has `n - 1` entries
  have hcount : es.length = s.size / s.ele_size - 1 := by
    have hsplit : s.size / s.ele_size = (s.size / s.ele_size - 1) + 1 := by omega
    have h3 : es.length * s.ele_size = (s.size / s.ele_size - 1) * s.ele_size := by
      rw [hsplit, Nat.succ_mul] at hmul
      omega
    exact Nat.eq_of_mul_eq_mul_right he h3
  -- the buffer is not empty, so the drain starts by reading the slot at `head`
  have hne : s.head ≠ s.tail := by
    intro hc
    unfold sbuf_used at hused
    rw [hc] at hused
    simp only [Nat.le_refl, if_true, Nat.sub_self, Nat.one_mul] at hused h2
    omega
  have hput : (sbuf_put OVERWRITE_EN OVERRUN_CNT_EN s r).2 =
      { s with head := sbuf_next_ptr s.head s.ele_size s.size
               tail := s.head
               overrun_cnt := (s.overrun_cnt + (s.flags &&& OVERRUN_CNT_EN)) % 2 ^ 32
               buf := memcpy_s s.buf s.tail r s.ele_size } := by
    rw [sbuf_put_write_path OVERWRITE_EN OVERRUN_CNT_EN s r (fun hc => hflag hc.2)]
    simp [hfull]
  rw [hput]
  simp only
  have hnew_ne : sbuf_next_ptr s.head s.ele_size s.size ≠ s.head := by
    rw [hnh]
    simp only [Nat.one_mul] at h2
    split <;> omega
  have hv' : sbuf_valid { s with head := sbuf_next_ptr s.head s.ele_size s.size } :=
    ⟨he, hsz, hdiv, h32, hvn.1, ht, hvn.2, hta⟩
  refine ⟨hcount, ⟨he, hsz, hdiv, h32, hvn.1, hh, hvn.2, hha⟩, trivial, hnew_ne, ?_, ?_⟩
  · cases fuel with
    | zero => simp [sbuf_drain, hne] at hes
    | succ f =>
      rw [sbuf_drain] at hes
      simp only [hne, if_false] at hes
      cases hd : sbuf_drain f { s with head := sbuf_next_ptr s.head s.ele_size s.size } with
      | none => rw [hd] at hes; simp at hes
      | some l' =>
        rw [hd] at hes
        simp only [Option.map_some', Option.some.injEq] at hes
        subst hes
        have hu' : sbuf_used { s with head := sbuf_next_ptr s.head s.ele_size s.size }
            + s.ele_size < s.size := by
          unfold sbuf_used at hused ⊢
          simp only
          rw [hnh]
          simp only [Nat.one_mul] at h2
          split at hused <;> split <;> split <;> omega
        have hpush := sbuf_drain_push r f
          { s with head := sbuf_next_ptr s.head s.ele_size s.size } l' hv' hu' hd
        simp only [hfull] at hpush
        have hov := sbuf_drain_overrun_cnt
          ((s.overrun_cnt + (s.flags &&& OVERRUN_CNT_EN)) % 2 ^ 32) (f + 1)
          { s with head := sbuf_next_ptr s.head s.ele_size s.size
                   tail := s.head
                   buf := memcpy_s s.buf s.tail r s.ele_size }
        simp only at hov
        rw [hov, hpush, List.tail_cons]
  · cases es with
    | nil =>
      simp only [List.length_nil] at hcount
      omega
    | cons x xs =>
      simp only [List.length_cons] at hcount
      simp only [List.tail_cons, List.length_append, List.length_singleton]
      omega

/-- Witness for C6: the full buffer `full_buf_numbered` (`head = 8`, `tail = 0`) holds the
records of slots 1, 2, 3; after `sbuf_put(ramp_record)` a drain yields the records of
slots 2 and 3 followed by the new record. -/
theorem sbuf_put_overwrite_evicts_oldest_witness :
    (sbuf_valid full_buf_numbered ∧
      2 ≤ full_buf_numbered.size / full_buf_numbered.ele_size ∧
      full_buf_numbered.flags &&& 2 ≠ 0 ∧
      sbuf_next_ptr full_buf_numbered.tail full_buf_numbered.ele_size
        full_buf_numbered.size = full_buf_numbered.head ∧
      sbuf_drain 3 full_buf_numbered
        = some [List.replicate 8 11, List.replicate 8 12, List.replicate 8 13]) ∧
    sbuf_drain 3 (sbuf_put 2 1 full_buf_numbered ramp_record).2
      = some [List.replicate 8 12, List.replicate 8 13, [0, 1, 2, 3, 4, 5, 6, 7]] :=
  ⟨by decide,
   (sbuf_put_overwrite_evicts_oldest 2 1 full_buf_numbered ramp_record
      [List.replicate 8 11, List.replicate 8 12, List.replicate 8 13] 3
      (by decide) (by decide) (by decide) (by decide) (by decide)).2.2.2.2.1⟩

/-! ## Theorems: `multiboot_to_acrn_bi` -/

/-- C10: for a boot descriptor with the has-memory-map flag set, a non-null translated
table address and entry count `c = mi_mmap_length / sizeof(entry) >= 1`,
`multiboot_to_acrn_bi` returns 0, stores `mi_mmap_entries = min(c, MAX_MMAP_ENTRIES)`, and
stored entry `i` equals external entry `i` for every `i` below the stored count; in
particular `c = MAX_MMAP_ENTRIES + 5` stores exactly `MAX_MMAP_ENTRIES` entries, equal to
the first `MAX_MMAP_ENTRIES` external ones. -/
theorem multiboot_to_acrn_bi_mmap_truncation {Mmap Module : Type} (k : boot_consts)
    (hpa2hva_early : Nat → Nat) (mem : boot_memory Mmap Module)
    (abi : acrn_boot_info Mmap Module) (mb_info : Nat)
    (hlen : (mem.mbi_at (hpa2hva_early mb_info)).mi_mmap_length < 2 ^ 32)
    (hflag : (mem.mbi_at (hpa2hva_early mb_info)).mi_flags &&& k.MULTIBOOT_INFO_HAS_MMAP ≠ 0)
    (hptr : hpa2hva_early (mem.mbi_at (hpa2hva_early mb_info)).mi_mmap_addr ≠ 0)
    (hc : 1 ≤ (mem.mbi_at (hpa2hva_early mb_info)).mi_mmap_length / k.sizeof_mmap) :
    (multiboot_to_acrn_bi k hpa2hva_early mem abi mb_info).1 = 0 ∧
    (multiboot_to_acrn_bi k hpa2hva_early mem abi mb_info).2.mi_mmap_entries
      = min ((mem.mbi_at (hpa2hva_early mb_info)).mi_mmap_length / k.sizeof_mmap)
          k.MAX_MMAP_ENTRIES ∧
    (∀ i, i < (multiboot_to_acrn_bi k hpa2hva_early mem abi mb_info).2.mi_mmap_entries →
      (multiboot_to_acrn_bi k hpa2hva_early mem abi mb_info).2.mi_mmap_entry i
        = mem.mmap_at (hpa2hva_early (mem.mbi_at (hpa2hva_early mb_info)).mi_mmap_addr) i) ∧
    ((mem.mbi_at (hpa2hva_early mb_info)).mi_mmap_length / k.sizeof_mmap
        = k.MAX_MMAP_ENTRIES + 5 →
      (multiboot_to_acrn_bi k hpa2hva_early mem abi mb_info).2.mi_mmap_entries
        = k.MAX_MMAP_ENTRIES ∧
      ∀ i, i < k.MAX_MMAP_ENTRIES →
        (multiboot_to_acrn_bi k hpa2hva_early mem abi mb_info).2.mi_mmap_entry i
          = mem.mmap_at (hpa2hva_early (mem.mbi_at (hpa2hva_early mb_info)).mi_mmap_addr) i) := by
  have hcl : (mem.mbi_at (hpa2hva_early mb_info)).mi_mmap_length / k.sizeof_mmap < 2 ^ 32 :=
    Nat.lt_of_le_of_lt (Nat.div_le_self _ _) hlen
  have hmod : (mem.mbi_at (hpa2hva_early mb_info)).mi_mmap_length / k.sizeof_mmap % 2 ^ 32
      = (mem.mbi_at (hpa2hva_early mb_info)).mi_mmap_length / k.sizeof_mmap :=
    Nat.mod_eq_of_lt hcl
  have hc0 : (mem.mbi_at (hpa2hva_early mb_info)).mi_mmap_length / k.sizeof_mmap ≠ 0 := by
    omega
  have hcount : (multiboot_to_acrn_bi k hpa2hva_early mem abi mb_info).2.mi_mmap_entries
      = min ((mem.mbi_at (hpa2hva_early mb_info)).mi_mmap_length / k.sizeof_mmap)
          k.MAX_MMAP_ENTRIES := by
    unfold multiboot_to_acrn_bi
    simp only [hmod, hflag, hptr, hc0, ne_eq, not_false_eq_true, and_self, if_true]
    split_ifs <;> simp only [] <;> omega
  have hentry : ∀ i,
      i < (multiboot_to_acrn_bi k hpa2hva_early mem abi mb_info).2.mi_mmap_entries →
      (multiboot_to_acrn_bi k hpa2hva_early mem abi mb_info).2.mi_mmap_entry i
        = mem.mmap_at (hpa2hva_early (mem.mbi_at (hpa2hva_early mb_info)).mi_mmap_addr) i := by
    intro i hi
    rw [hcount] at hi
    unfold multiboot_to_acrn_bi
    simp only [hmod, hflag, hptr, hc0, ne_eq, not_false_eq_true, and_self, if_true]
    have hi1 : i < k.MAX_MMAP_ENTRIES := by omega
    have hi2 : i < (mem.mbi_at (hpa2hva_early mb_info)).mi_mmap_length / k.sizeof_mmap := by
      omega
    split_ifs <;> simp only [memcpy_s_entries, hi1, hi2, if_true]
  refine ⟨rfl, hcount, hentry, ?_⟩
  intro h5
  have hst : (multiboot_to_acrn_bi k hpa2hva_early mem abi mb_info).2.mi_mmap_entries
      = k.MAX_MMAP_ENTRIES := by
    rw [hcount, h5]; omega
  refine ⟨hst, ?_⟩
  intro i hi
  exact hentry i (by rw [hst]; exact hi)

/-- Witness for C10: an external map of `32 + 5` entries with `MAX_MMAP_ENTRIES = 32`:
the call returns 0, stores 32 entries, and keeps the first and the 32nd external entry. -/
theorem multiboot_to_acrn_bi_mmap_truncation_witness :
    ((example_memory.mbi_at (id 512)).mi_mmap_length < 2 ^ 32 ∧
      (example_memory.mbi_at (id 512)).mi_flags &&& example_consts.MULTIBOOT_INFO_HAS_MMAP ≠ 0 ∧
      id (example_memory.mbi_at (id 512)).mi_mmap_addr ≠ 0 ∧
      1 ≤ (example_memory.mbi_at (id 512)).mi_mmap_length / example_consts.sizeof_mmap) ∧
    (multiboot_to_acrn_bi example_consts id example_memory example_abi 512).1 = 0 ∧
    (multiboot_to_acrn_bi example_consts id example_memory example_abi 512).2.mi_mmap_entries
      = 32 ∧
    (multiboot_to_acrn_bi example_consts id example_memory example_abi 512).2.mi_mmap_entry 0
      = 1000 ∧
    (multiboot_to_acrn_bi example_consts id example_memory example_abi 512).2.mi_mmap_entry 31
      = 1031 ∧
    (multiboot_to_acrn_bi example_consts id example_memory example_abi 512).2.mi_mmap_entry 32
      = 0 :=
  ⟨by decide,
   (multiboot_to_acrn_bi_mmap_truncation example_consts id example_memory example_abi 512
      (by decide) (by decide) (by decide) (by decide)).1,
   ((multiboot_to_acrn_bi_mmap_truncation example_consts id example_memory example_abi 512
      (by decide) (by decide) (by decide) (by decide)).2.2.2 (by decide)).1,
   by decide, by decide, by decide⟩

/-- C11: when the has-memory-map flag is unset, or the translated memory-map table
address is null, or the entry count `mi_mmap_length / sizeof(entry)` is zero,
`multiboot_to_acrn_bi` stores `mi_mmap_entries = 0`, leaves the record's memory-map entry
array as it was, and returns 0; the three absence forms give this same result. -/
theorem multiboot_to_acrn_bi_mmap_absent {Mmap Module : Type} (k : boot_consts)
    (hpa2hva_early : Nat → Nat) (mem : boot_memory Mmap Module)
    (abi : acrn_boot_info Mmap Module) (mb_info : Nat)
    (h : (mem.mbi_at (hpa2hva_early mb_info)).mi_flags &&& k.MULTIBOOT_INFO_HAS_MMAP = 0 ∨
         hpa2hva_early (mem.mbi_at (hpa2hva_early mb_info)).mi_mmap_addr = 0 ∨
         (mem.mbi_at (hpa2hva_early mb_info)).mi_mmap_length / k.sizeof_mmap = 0) :
    (multiboot_to_acrn_bi k hpa2hva_early mem abi mb_info).1 = 0 ∧
    (multiboot_to_acrn_bi k hpa2hva_early mem abi mb_info).2.mi_mmap_entries = 0 ∧
    (multiboot_to_acrn_bi k hpa2hva_early mem abi mb_info).2.mi_mmap_entry
      = abi.mi_mmap_entry := by
  have hcond : ¬ ((mem.mbi_at (hpa2hva_early mb_info)).mi_flags
        &&& k.MULTIBOOT_INFO_HAS_MMAP ≠ 0 ∧
      (mem.mbi_at (hpa2hva_early mb_info)).mi_mmap_length / k.sizeof_mmap % 2 ^ 32 ≠ 0 ∧
      hpa2hva_early (mem.mbi_at (hpa2hva_early mb_info)).mi_mmap_addr ≠ 0) := by
    rintro ⟨h1, h2, h3⟩
    rcases h with h | h | h
    · exact h1 h
    · exact h3 h
    · rw [h] at h2
      exact h2 rfl
  refine ⟨rfl, ?_, ?_⟩
  · unfold multiboot_to_acrn_bi
    simp only [hcond, if_false]
    split_ifs <;> rfl
  · unfold multiboot_to_acrn_bi
    simp only [hcond, if_false]
    split_ifs <;> rfl

/-- Witness for C11: the has-memory-map flag is set but the table address is null; the
record keeps its earlier map entries and the stored count is 0. -/
theorem multiboot_to_acrn_bi_mmap_absent_witness :
    ((example_memory_null_mmap.mbi_at (id 512)).mi_flags
        &&& example_consts.MULTIBOOT_INFO_HAS_MMAP = 0 ∨
      id (example_memory_null_mmap.mbi_at (id 512)).mi_mmap_addr = 0 ∨
      (example_memory_null_mmap.mbi_at (id 512)).mi_mmap_length
        / example_consts.sizeof_mmap = 0) ∧
    (multiboot_to_acrn_bi example_consts id example_memory_null_mmap example_abi_used 512).1
      = 0 ∧
    (multiboot_to_acrn_bi example_consts id example_memory_null_mmap
      example_abi_used 512).2.mi_mmap_entries = 0 ∧
    (multiboot_to_acrn_bi example_consts id example_memory_null_mmap
      example_abi_used 512).2.mi_mmap_entry = example_abi_used.mi_mmap_entry :=
  ⟨by decide,
   multiboot_to_acrn_bi_mmap_absent example_consts id example_memory_null_mmap
     example_abi_used 512 (by decide)⟩

/-- C12: if the has-modules flag is set, `mi_mods_count` is non-zero and the translated
module table address is non-null, `multiboot_to_acrn_bi` stores
`mi_mods_count = min(external count, MAX_MODULE_NUM)` and stored module `i` equals
external module `i` for every `i` below the stored count; otherwise it stores
`mi_mods_count = 0` and leaves the module array as it was. -/
theorem multiboot_to_acrn_bi_modules {Mmap Module : Type} (k : boot_consts)
    (hpa2hva_early : Nat → Nat) (mem : boot_memory Mmap Module)
    (abi : acrn_boot_info Mmap Module) (mb_info : Nat) :
    (((mem.mbi_at (hpa2hva_early mb_info)).mi_flags &&& k.MULTIBOOT_INFO_HAS_MODS ≠ 0 ∧
        (mem.mbi_at (hpa2hva_early mb_info)).mi_mods_count ≠ 0 ∧
        hpa2hva_early (mem.mbi_at (hpa2hva_early mb_info)).mi_mods_addr ≠ 0) →
      (multiboot_to_acrn_bi k hpa2hva_early mem abi mb_info).2.mi_mods_count
        = min (mem.mbi_at (hpa2hva_early mb_info)).mi_mods_count k.MAX_MODULE_NUM ∧
      ∀ i, i < (multiboot_to_acrn_bi k hpa2hva_early mem abi mb_info).2.mi_mods_count →
        (multiboot_to_acrn_bi k hpa2hva_early mem abi mb_info).2.mi_mods i
          = mem.mods_at (hpa2hva_early (mem.mbi_at (hpa2hva_early mb_info)).mi_mods_addr) i) ∧
    (¬ ((mem.mbi_at (hpa2hva_early mb_info)).mi_flags &&& k.MULTIBOOT_INFO_HAS_MODS ≠ 0 ∧
        (mem.mbi_at (hpa2hva_early mb_info)).mi_mods_count ≠ 0 ∧
        hpa2hva_early (mem.mbi_at (hpa2hva_early mb_info)).mi_mods_addr ≠ 0) →
      (multiboot_to_acrn_bi k hpa2hva_early mem abi mb_info).2.mi_mods_count = 0 ∧
      (multiboot_to_acrn_bi k hpa2hva_early mem abi mb_info).2.mi_mods = abi.mi_mods) := by
  constructor
  · intro hc
    have hcount : (multiboot_to_acrn_bi k hpa2hva_early mem abi mb_info).2.mi_mods_count
        = min (mem.mbi_at (hpa2hva_early mb_info)).mi_mods_count k.MAX_MODULE_NUM := by
      unfold multiboot_to_acrn_bi
      simp only []
      split_ifs <;> (try simp only [] at *) <;> omega
    refine ⟨hcount, ?_⟩
    intro i hi
    rw [hcount] at hi
    have hi1 : i < k.MAX_MODULE_NUM := by omega
    have hi2 : i < (mem.mbi_at (hpa2hva_early mb_info)).mi_mods_count := by omega
    unfold multiboot_to_acrn_bi
    simp only []
    split_ifs <;> (try simp only [] at *) <;> simp only [memcpy_s_entries, hi1, hi2, if_true]
  · intro hc
    constructor
    · unfold multiboot_to_acrn_bi
      simp only []
      split_ifs <;> simp only [] at *
    · unfold multiboot_to_acrn_bi
      simp only []
      split_ifs <;> simp only [] at *

/-- Witness for C12: six external modules with `MAX_MODULE_NUM = 4`: four are stored,
equal to the first four external ones, and the fifth array element keeps its old value. -/
theorem multiboot_to_acrn_bi_modules_witness :
    ((example_memory_null_mmap.mbi_at (id 512)).mi_flags
        &&& example_consts.MULTIBOOT_INFO_HAS_MODS ≠ 0 ∧
      (example_memory_null_mmap.mbi_at (id 512)).mi_mods_count ≠ 0 ∧
      id (example_memory_null_mmap.mbi_at (id 512)).mi_mods_addr ≠ 0) ∧
    (multiboot_to_acrn_bi example_consts id example_memory_null_mmap
      example_abi_used 512).2.mi_mods_count = 4 ∧
    (multiboot_to_acrn_bi example_consts id example_memory_null_mmap
      example_abi_used 512).2.mi_mods 3 = 2003 ∧
    (multiboot_to_acrn_bi example_consts id example_memory_null_mmap
      example_abi_used 512).2.mi_mods 4 = 13 :=
  ⟨by decide,
   ((multiboot_to_acrn_bi_modules example_consts id example_memory_null_mmap
      example_abi_used 512).1 (by decide)).1,
   by decide, by decide⟩

/-- C13: for every external boot descriptor (any flags, lengths, counts and table
addresses), after `multiboot_to_acrn_bi` the record satisfies
`mi_mmap_entries <= MAX_MMAP_ENTRIES` and `mi_mods_count <= MAX_MODULE_NUM`. -/
theorem multiboot_to_acrn_bi_capacity {Mmap Module : Type} (k : boot_consts)
    (hpa2hva_early : Nat → Nat) (mem : boot_memory Mmap Module)
    (abi : acrn_boot_info Mmap Module) (mb_info : Nat) :
    (multiboot_to_acrn_bi k hpa2hva_early mem abi mb_info).2.mi_mmap_entries
      ≤ k.MAX_MMAP_ENTRIES ∧
    (multiboot_to_acrn_bi k hpa2hva_early mem abi mb_info).2.mi_mods_count
      ≤ k.MAX_MODULE_NUM := by
  constructor
  · unfold multiboot_to_acrn_bi
    simp only []
    split_ifs <;> (try simp only [] at *) <;> omega
  · unfold multiboot_to_acrn_bi
    simp only []
    split_ifs <;> (try simp only [] at *) <;> omega

/-- C14: when `registers[0]` differs from the expected magic, so that the boot-source
check `boot_from_multiboot(magic, info)` (which accepts no other magic) fails,
`init_multiboot_info` returns `-ENODEV` and the boot record after the call is the record
before it. -/
theorem init_multiboot_info_bad_magic {Mmap Module : Type} (k : boot_consts)
    (ENODEV : Int) (MULTIBOOT_INFO_MAGIC : Nat) (boot_from_multiboot : Nat → Nat → Bool)
    (hpa2hva_early : Nat → Nat) (mem : boot_memory Mmap Module)
    (abi : acrn_boot_info Mmap Module) (registers : Nat → Nat)
    (hcheck : ∀ magic info, boot_from_multiboot magic info = true →
      magic = MULTIBOOT_INFO_MAGIC)
    (hmagic : registers 0 ≠ MULTIBOOT_INFO_MAGIC) :
    boot_from_multiboot (registers 0) (registers 1) = false ∧
    (init_multiboot_info k ENODEV boot_from_multiboot hpa2hva_early mem abi registers).1
      = -ENODEV ∧
    (init_multiboot_info k ENODEV boot_from_multiboot hpa2hva_early mem abi registers).2
      = abi := by
  have hfalse : boot_from_multiboot (registers 0) (registers 1) = false := by
    cases hb : boot_from_multiboot (registers 0) (registers 1)
    · rfl
    · exact absurd (hcheck _ _ hb) hmagic
  refine ⟨hfalse, ?_, ?_⟩
  · unfold init_multiboot_info
    simp [hfalse]
  · unfold init_multiboot_info
    simp [hfalse]

/-- Witness for C14: magic `0x12345678` against the expected `0x2BADB002`, with
`ENODEV = 19`: the call returns `-19` and the record is untouched. -/
theorem init_multiboot_info_bad_magic_witness :
    ((∀ magic info, example_boot_check magic info = true → magic = 732803074) ∧
      example_bad_registers 0 ≠ 732803074) ∧
    (init_multiboot_info example_consts 19 example_boot_check id example_memory
      example_abi_used example_bad_registers).1 = -19 ∧
    (init_multiboot_info example_consts 19 example_boot_check id example_memory
      example_abi_used example_bad_registers).2 = example_abi_used :=
  ⟨⟨fun magic info h => by
      unfold example_boot_check at h
      simp only [Bool.and_eq_true, decide_eq_true_eq] at h
      exact h.1,
    by decide⟩,
   (init_multiboot_info_bad_magic example_consts 19 732803074 example_boot_check id
      example_memory example_abi_used example_bad_registers
      (fun magic info h => by
        unfold example_boot_check at h
        simp only [Bool.and_eq_true, decide_eq_true_eq] at h
        exact h.1)
      (by decide)).2⟩

/-! ## Theorems: `sbuf_setup_common` -/

/-- C15: for every `sbuf_id`, `sbuf_setup_common` makes exactly one external call and
returns its result: `sbuf_share_setup(cpu_id, sbuf_id, hva)` for `ACRN_TRACE`,
`ACRN_HVLOG`, `ACRN_SEP` and `ACRN_SOCWATCH`, `init_asyncio(vm, hva)` for `ACRN_ASYNCIO`,
`init_vm_event(vm, hva)` for `ACRN_VM_EVENT`; for any other `sbuf_id` it calls none of the
three setup routines (only `pr_err`) and returns `-1`. -/
theorem sbuf_setup_common_routing {VM : Type} (ids : sbuf_ids) (ext : setup_externals VM)
    (vm : VM) (cpu_id sbuf_id hva : Nat) (hd : ids.distinct) :
    ((sbuf_id = ids.ACRN_TRACE ∨ sbuf_id = ids.ACRN_HVLOG ∨ sbuf_id = ids.ACRN_SEP ∨
        sbuf_id = ids.ACRN_SOCWATCH) →
      sbuf_setup_common ids ext vm cpu_id sbuf_id hva
        = (ext.sbuf_share_setup cpu_id sbuf_id hva,
           [setup_call.sbuf_share_setup cpu_id sbuf_id hva])) ∧
    (sbuf_id = ids.ACRN_ASYNCIO →
      sbuf_setup_common ids ext vm cpu_id sbuf_id hva
        = (ext.init_asyncio vm hva, [setup_call.init_asyncio vm hva])) ∧
    (sbuf_id = ids.ACRN_VM_EVENT →
      sbuf_setup_common ids ext vm cpu_id sbuf_id hva
        = (ext.init_vm_event vm hva, [setup_call.init_vm_event vm hva])) ∧
    ((sbuf_id ≠ ids.ACRN_TRACE ∧ sbuf_id ≠ ids.ACRN_HVLOG ∧ sbuf_id ≠ ids.ACRN_SEP ∧
        sbuf_id ≠ ids.ACRN_SOCWATCH ∧ sbuf_id ≠ ids.ACRN_ASYNCIO ∧
        sbuf_id ≠ ids.ACRN_VM_EVENT) →
      sbuf_setup_common ids ext vm cpu_id sbuf_id hva
        = (-1, [setup_call.pr_err sbuf_id])) := by
  unfold sbuf_ids.distinct at hd
  simp only [List.nodup_cons, List.mem_cons, List.mem_singleton, List.not_mem_nil, not_or,
    or_false, List.nodup_nil, and_true, not_false_eq_true] at hd
  obtain ⟨⟨_, _, _, h15, h16⟩, ⟨_, _, h25, h26⟩, ⟨_, h35, h36⟩, ⟨h45, h46⟩, h56⟩ := hd
  refine ⟨?_, ?_, ?_, ?_⟩
  · intro h
    unfold sbuf_setup_common
    rw [if_pos h]
  · intro h
    have hn : ¬ (sbuf_id = ids.ACRN_TRACE ∨ sbuf_id = ids.ACRN_HVLOG ∨
        sbuf_id = ids.ACRN_SEP ∨ sbuf_id = ids.ACRN_SOCWATCH) := by
      rw [h]
      rintro (h' | h' | h' | h')
      · exact h15 h'.symm
      · exact h25 h'.symm
      · exact h35 h'.symm
      · exact h45 h'.symm
    unfold sbuf_setup_common
    rw [if_neg hn, if_pos h]
  · intro h
    have hn : ¬ (sbuf_id = ids.ACRN_TRACE ∨ sbuf_id = ids.ACRN_HVLOG ∨
        sbuf_id = ids.ACRN_SEP ∨ sbuf_id = ids.ACRN_SOCWATCH) := by
      rw [h]
      rintro (h' | h' | h' | h')
      · exact h16 h'.symm
      · exact h26 h'.symm
      · exact h36 h'.symm
      · exact h46 h'.symm
    have hn5 : ¬ sbuf_id = ids.ACRN_ASYNCIO := by
      rw [h]
      exact fun h' => h56 h'.symm
    unfold sbuf_setup_common
    rw [if_neg hn, if_neg hn5, if_pos h]
  · rintro ⟨h1, h2, h3, h4, h5, h6⟩
    have hn : ¬ (sbuf_id = ids.ACRN_TRACE ∨ sbuf_id = ids.ACRN_HVLOG ∨
        sbuf_id = ids.ACRN_SEP ∨ sbuf_id = ids.ACRN_SOCWATCH) := by
      rintro (h' | h' | h' | h')
      · exact h1 h'
      · exact h2 h'
      · exact h3 h'
      · exact h4 h'
    unfold sbuf_setup_common
    rw [if_neg hn, if_neg h5, if_neg h6]

/-- Witness for C15: with identifiers `0 .. 5`, kind 2 goes to `sbuf_share_setup` on CPU 7,
kind 4 to `init_asyncio`, kind 5 to `init_vm_event`, and kind 9 is rejected with `-1`. -/
theorem sbuf_setup_common_routing_witness :
    example_ids.distinct ∧
    sbuf_setup_common example_ids example_externals 1 7 2 4096
      = (172, [setup_call.sbuf_share_setup 7 2 4096]) ∧
    sbuf_setup_common example_ids example_externals 1 7 4 4096
      = (201, [setup_call.init_asyncio 1 4096]) ∧
    sbuf_setup_common example_ids example_externals 1 7 5 4096
      = (301, [setup_call.init_vm_event 1 4096]) ∧
    sbuf_setup_common example_ids example_externals 1 7 9 4096
      = (-1, [setup_call.pr_err 9]) :=
  ⟨by decide,
   (sbuf_setup_common_routing example_ids example_externals 1 7 2 4096 (by decide)).1
     (by decide),
   (sbuf_setup_common_routing example_ids example_externals 1 7 4 4096 (by decide)).2.1
     (by decide),
   (sbuf_setup_common_routing example_ids example_externals 1 7 5 4096 (by decide)).2.2.1
     (by decide),
   (sbuf_setup_common_routing example_ids example_externals 1 7 9 4096 (by decide)).2.2.2
     (by decide)⟩

/-! ## Theorems: effects of `sbuf_put` -/

/-- Helper: the effects of a dropped enqueue. -/
theorem sbuf_put_events_dropped (OVERWRITE_EN OVERRUN_CNT_EN : Nat) (sbuf : shared_buf)
    (data : Nat → Nat)
    (h : sbuf_next_ptr sbuf.tail sbuf.ele_size sbuf.size = sbuf.head ∧
         sbuf.flags &&& OVERWRITE_EN = 0) :
    sbuf_put_events OVERWRITE_EN OVERRUN_CNT_EN sbuf data =
      (sbuf_put OVERWRITE_EN OVERRUN_CNT_EN sbuf data,
       [sbuf_event.stac, sbuf_event.load sbuf_field.tail, sbuf_event.load sbuf_field.ele_size,
        sbuf_event.load sbuf_field.size, sbuf_event.load sbuf_field.head,
        sbuf_event.load sbuf_field.flags, sbuf_event.clac]) := by
  unfold sbuf_put_events sbuf_put
  simp [h.1, h.2]

/-- Helper: the effects of an enqueue into a buffer that is not full. -/
theorem sbuf_put_events_not_full (OVERWRITE_EN OVERRUN_CNT_EN : Nat) (sbuf : shared_buf)
    (data : Nat → Nat)
    (h : sbuf_next_ptr sbuf.tail sbuf.ele_size sbuf.size ≠ sbuf.head) :
    sbuf_put_events OVERWRITE_EN OVERRUN_CNT_EN sbuf data =
      (sbuf_put OVERWRITE_EN OVERRUN_CNT_EN sbuf data,
       [sbuf_event.stac, sbuf_event.load sbuf_field.tail, sbuf_event.load sbuf_field.ele_size,
        sbuf_event.load sbuf_field.size, sbuf_event.load sbuf_field.head,
        sbuf_event.load sbuf_field.head, sbuf_event.load sbuf_field.tail,
        sbuf_event.load sbuf_field.ele_size, sbuf_event.load sbuf_field.ele_size,
        sbuf_event.memcpy_s, sbuf_event.cpu_write_memory_barrier,
        sbuf_event.store sbuf_field.tail, sbuf_event.load sbuf_field.ele_size,
        sbuf_event.clac]) := by
  unfold sbuf_put_events sbuf_put
  simp [h]

/-- Helper: the effects of an overwriting enqueue into a full buffer. -/
theorem sbuf_put_events_overwrite (OVERWRITE_EN OVERRUN_CNT_EN : Nat) (sbuf : shared_buf)
    (data : Nat → Nat)
    (hfull : sbuf_next_ptr sbuf.tail sbuf.ele_size sbuf.size = sbuf.head)
    (hflag : sbuf.flags &&& OVERWRITE_EN ≠ 0) :
    sbuf_put_events OVERWRITE_EN OVERRUN_CNT_EN sbuf data =
      (sbuf_put OVERWRITE_EN OVERRUN_CNT_EN sbuf data,
       [sbuf_event.stac, sbuf_event.load sbuf_field.tail, sbuf_event.load sbuf_field.ele_size,
        sbuf_event.load sbuf_field.size, sbuf_event.load sbuf_field.head,
        sbuf_event.load sbuf_field.flags, sbuf_event.load sbuf_field.head,
        sbuf_event.load sbuf_field.overrun_cnt, sbuf_event.load sbuf_field.flags,
        sbuf_event.store sbuf_field.overrun_cnt, sbuf_event.load sbuf_field.tail,
        sbuf_event.load sbuf_field.ele_size, sbuf_event.load sbuf_field.ele_size,
        sbuf_event.memcpy_s, sbuf_event.cpu_write_memory_barrier,
        sbuf_event.load sbuf_field.head, sbuf_event.load sbuf_field.ele_size,
        sbuf_event.load sbuf_field.size, sbuf_event.store sbuf_field.head,
        sbuf_event.store sbuf_field.tail, sbuf_event.load sbuf_field.ele_size,
        sbuf_event.clac]) := by
  unfold sbuf_put_events sbuf_put
  simp [hfull, hflag]

/-- C16: for every buffer state and record, the effects of one `sbuf_put` call (whose
result is that of `sbuf_put`) start with `stac`, end with `clac`, and contain neither
`stac` nor `clac` in between: the bracket is opened once before the first access to the
shared buffer and closed once after the last one, on the write path and on the dropped
path alike. -/
theorem sbuf_put_events_bracket (OVERWRITE_EN OVERRUN_CNT_EN : Nat) (sbuf : shared_buf)
    (data : Nat → Nat) :
    (sbuf_put_events OVERWRITE_EN OVERRUN_CNT_EN sbuf data).1
      = sbuf_put OVERWRITE_EN OVERRUN_CNT_EN sbuf data ∧
    ∃ mid : List sbuf_event,
      (sbuf_put_events OVERWRITE_EN OVERRUN_CNT_EN sbuf data).2
        = sbuf_event.stac :: (mid ++ [sbuf_event.clac]) ∧
      sbuf_event.stac ∉ mid ∧ sbuf_event.clac ∉ mid ∧
      (∃ e ∈ mid, e.is_access = true) ∧
      (sbuf_put_events OVERWRITE_EN OVERRUN_CNT_EN sbuf data).2.count sbuf_event.stac = 1 ∧
      (sbuf_put_events OVERWRITE_EN OVERRUN_CNT_EN sbuf data).2.count sbuf_event.clac = 1 := by
  by_cases hfull : sbuf_next_ptr sbuf.tail sbuf.ele_size sbuf.size = sbuf.head
  · by_cases hflag : sbuf.flags &&& OVERWRITE_EN = 0
    · rw [sbuf_put_events_dropped OVERWRITE_EN OVERRUN_CNT_EN sbuf data ⟨hfull, hflag⟩]
      refine ⟨rfl,
        [sbuf_event.load sbuf_field.tail, sbuf_event.load sbuf_field.ele_size,
          sbuf_event.load sbuf_field.size, sbuf_event.load sbuf_field.head,
          sbuf_event.load sbuf_field.flags],
        rfl, ?_, ?_, ?_, ?_, ?_⟩ <;> dsimp only <;> decide
    · rw [sbuf_put_events_overwrite OVERWRITE_EN OVERRUN_CNT_EN sbuf data hfull hflag]
      refine ⟨rfl,
        [sbuf_event.load sbuf_field.tail, sbuf_event.load sbuf_field.ele_size,
          sbuf_event.load sbuf_field.size, sbuf_event.load sbuf_field.head,
          sbuf_event.load sbuf_field.flags, sbuf_event.load sbuf_field.head,
          sbuf_event.load sbuf_field.overrun_cnt, sbuf_event.load sbuf_field.flags,
          sbuf_event.store sbuf_field.overrun_cnt, sbuf_event.load sbuf_field.tail,
          sbuf_event.load sbuf_field.ele_size, sbuf_event.load sbuf_field.ele_size,
          sbuf_event.memcpy_s, sbuf_event.cpu_write_memory_barrier,
          sbuf_event.load sbuf_field.head, sbuf_event.load sbuf_field.ele_size,
          sbuf_event.load sbuf_field.size, sbuf_event.store sbuf_field.head,
          sbuf_event.store sbuf_field.tail, sbuf_event.load sbuf_field.ele_size],
        rfl, ?_, ?_, ?_, ?_, ?_⟩ <;> dsimp only <;> decide
  · rw [sbuf_put_events_not_full OVERWRITE_EN OVERRUN_CNT_EN sbuf data hfull]
    refine ⟨rfl,
      [sbuf_event.load sbuf_field.tail, sbuf_event.load sbuf_field.ele_size,
        sbuf_event.load sbuf_field.size, sbuf_event.load sbuf_field.head,
        sbuf_event.load sbuf_field.head, sbuf_event.load sbuf_field.tail,
        sbuf_event.load sbuf_field.ele_size, sbuf_event.load sbuf_field.ele_size,
        sbuf_event.memcpy_s, sbuf_event.cpu_write_memory_barrier,
        sbuf_event.store sbuf_field.tail, sbuf_event.load sbuf_field.ele_size],
      rfl, ?_, ?_, ?_, ?_, ?_⟩ <;> dsimp only <;> decide

/-- C17: in every `sbuf_put` call that writes a record, the effects are: no store to `head`
or `tail` first, then the payload copy, immediately followed by
`cpu_write_memory_barrier`, and only after that the index stores; the copy and the barrier
happen once; the index stores are `head` then `tail` when the call evicts (the buffer was
full), and `tail` alone otherwise. -/
theorem sbuf_put_events_publish_order (OVERWRITE_EN OVERRUN_CNT_EN : Nat)
    (sbuf : shared_buf) (data : Nat → Nat)
    (hw : ¬ (sbuf_next_ptr sbuf.tail sbuf.ele_size sbuf.size = sbuf.head ∧
             sbuf.flags &&& OVERWRITE_EN = 0)) :
    (sbuf_put_events OVERWRITE_EN OVERRUN_CNT_EN sbuf data).1
      = sbuf_put OVERWRITE_EN OVERRUN_CNT_EN sbuf data ∧
    ∃ pre post : List sbuf_event,
      (sbuf_put_events OVERWRITE_EN OVERRUN_CNT_EN sbuf data).2
        = pre ++ [sbuf_event.memcpy_s, sbuf_event.cpu_write_memory_barrier] ++ post ∧
      (∀ e ∈ pre, e.is_index_store = false) ∧
      sbuf_event.memcpy_s ∉ pre ∧ sbuf_event.cpu_write_memory_barrier ∉ pre ∧
      sbuf_event.memcpy_s ∉ post ∧ sbuf_event.cpu_write_memory_barrier ∉ post ∧
      post.filter sbuf_event.is_index_store
        = (if sbuf_next_ptr sbuf.tail sbuf.ele_size sbuf.size = sbuf.head
           then [sbuf_event.store sbuf_field.head, sbuf_event.store sbuf_field.tail]
           else [sbuf_event.store sbuf_field.tail]) := by
  by_cases hfull : sbuf_next_ptr sbuf.tail sbuf.ele_size sbuf.size = sbuf.head
  · have hflag : sbuf.flags &&& OVERWRITE_EN ≠ 0 := fun hc => hw ⟨hfull, hc⟩
    rw [sbuf_put_events_overwrite OVERWRITE_EN OVERRUN_CNT_EN sbuf data hfull hflag,
      if_pos hfull]
    refine ⟨rfl,
      [sbuf_event.stac, sbuf_event.load sbuf_field.tail, sbuf_event.load sbuf_field.ele_size,
        sbuf_event.load sbuf_field.size, sbuf_event.load sbuf_field.head,
        sbuf_event.load sbuf_field.flags, sbuf_event.load sbuf_field.head,
        sbuf_event.load sbuf_field.overrun_cnt, sbuf_event.load sbuf_field.flags,
        sbuf_event.store sbuf_field.overrun_cnt, sbuf_event.load sbuf_field.tail,
        sbuf_event.load sbuf_field.ele_size, sbuf_event.load sbuf_field.ele_size],
      [sbuf_event.load sbuf_field.head, sbuf_event.load sbuf_field.ele_size,
        sbuf_event.load sbuf_field.size, sbuf_event.store sbuf_field.head,
        sbuf_event.store sbuf_field.tail, sbuf_event.load sbuf_field.ele_size,
        sbuf_event.clac],
      rfl, by decide, by decide, by decide, by decide, by decide, by decide⟩
  · rw [sbuf_put_events_not_full OVERWRITE_EN OVERRUN_CNT_EN sbuf data hfull, if_neg hfull]
    refine ⟨rfl,
      [sbuf_event.stac, sbuf_event.load sbuf_field.tail, sbuf_event.load sbuf_field.ele_size,
        sbuf_event.load sbuf_field.size, sbuf_event.load sbuf_field.head,
        sbuf_event.load sbuf_field.head, sbuf_event.load sbuf_field.tail,
        sbuf_event.load sbuf_field.ele_size, sbuf_event.load sbuf_field.ele_size],
      [sbuf_event.store sbuf_field.tail, sbuf_event.load sbuf_field.ele_size,
        sbuf_event.clac],
      rfl, by decide, by decide, by decide, by decide, by decide, by decide⟩

/-- Witness for C17: the overwriting enqueue into `full_buf_both_flags`
(`OVERWRITE_EN = 2`): the effects after `stac` and the loads run copy, barrier, the store
of `head`, the store of `tail`, in that order. -/
theorem sbuf_put_events_publish_order_witness :
    ¬ (sbuf_next_ptr full_buf_both_flags.tail full_buf_both_flags.ele_size
          full_buf_both_flags.size = full_buf_both_flags.head ∧
        full_buf_both_flags.flags &&& 2 = 0) ∧
    (sbuf_put_events 2 1 full_buf_both_flags ramp_record).1
      = sbuf_put 2 1 full_buf_both_flags ramp_record ∧
    ((sbuf_put_events 2 1 full_buf_both_flags ramp_record).2.filter
        fun e => e.is_index_store || decide (e = sbuf_event.memcpy_s) ||
          decide (e = sbuf_event.cpu_write_memory_barrier))
      = [sbuf_event.memcpy_s, sbuf_event.cpu_write_memory_barrier,
         sbuf_event.store sbuf_field.head, sbuf_event.store sbuf_field.tail] :=
  ⟨by decide,
   (sbuf_put_events_publish_order 2 1 full_buf_both_flags ramp_record (by decide)).1,
   by decide⟩

/-! ## Theorems: ring invariant, write footprint and wraparound -/

/-- C18: if a buffer is valid before `sbuf_put` (`ele_size > 0`, `size` a positive multiple
of `ele_size`, `head` and `tail` below `size` and multiples of `ele_size`), it is valid
after the call, whatever the flags and the outcome; the call changes none of `ele_size`,
`size`, `flags`; and `tail + ele_size` stays within `size`, so it does not overflow 32
bits. -/
theorem sbuf_put_preserves_valid (OVERWRITE_EN OVERRUN_CNT_EN : Nat) (sbuf : shared_buf)
    (data : Nat → Nat) (hv : sbuf_valid sbuf) :
    sbuf_valid (sbuf_put OVERWRITE_EN OVERRUN_CNT_EN sbuf data).2 ∧
    (sbuf_put OVERWRITE_EN OVERRUN_CNT_EN sbuf data).2.ele_size = sbuf.ele_size ∧
    (sbuf_put OVERWRITE_EN OVERRUN_CNT_EN sbuf data).2.size = sbuf.size ∧
    (sbuf_put OVERWRITE_EN OVERRUN_CNT_EN sbuf data).2.flags = sbuf.flags ∧
    sbuf.tail + sbuf.ele_size ≤ sbuf.size ∧
    sbuf.tail + sbuf.ele_size < 2 ^ 32 := by
  have hv0 := hv
  obtain ⟨_, g2, _, _⟩ := sbuf_valid_gaps sbuf hv
  obtain ⟨he, hsz, hdiv, h32, hh, ht, hha, hta⟩ := hv
  have hvt := sbuf_next_ptr_valid sbuf.ele_size sbuf.size sbuf.tail he h32 hdiv hta ht
  have hvh := sbuf_next_ptr_valid sbuf.ele_size sbuf.size sbuf.head he h32 hdiv hha hh
  by_cases hd : sbuf_next_ptr sbuf.tail sbuf.ele_size sbuf.size = sbuf.head ∧
      sbuf.flags &&& OVERWRITE_EN = 0
  · rw [sbuf_put_full_eq OVERWRITE_EN OVERRUN_CNT_EN sbuf data hd.2 hd.1]
    exact ⟨hv0, rfl, rfl, rfl, g2, by omega⟩
  · rw [sbuf_put_write_path OVERWRITE_EN OVERRUN_CNT_EN sbuf data hd]
    refine ⟨?_, rfl, rfl, rfl, g2, by omega⟩
    by_cases hfull : sbuf_next_ptr sbuf.tail sbuf.ele_size sbuf.size = sbuf.head
    · simp only [hfull, if_true]
      rw [← hfull]
      exact ⟨he, hsz, hdiv, h32, by rw [hfull]; exact hvh.1, hvt.1,
        by rw [hfull]; exact hvh.2, hvt.2⟩
    · simp only [hfull, if_false]
      exact ⟨he, hsz, hdiv, h32, hh, hvt.1, hha, hvt.2⟩

/-- Witness for C18: the overwriting enqueue into `full_buf_both_flags` leaves a valid
buffer (`head = 16`, `tail = 8`). -/
theorem sbuf_put_preserves_valid_witness :
    sbuf_valid full_buf_both_flags ∧
    sbuf_valid (sbuf_put 2 1 full_buf_both_flags ramp_record).2 ∧
    (sbuf_put 2 1 full_buf_both_flags ramp_record).2.head = 16 ∧
    (sbuf_put 2 1 full_buf_both_flags ramp_record).2.tail = 8 :=
  ⟨by decide,
   (sbuf_put_preserves_valid 2 1 full_buf_both_flags ramp_record (by decide)).1,
   by decide, by decide⟩

/-- C19: on a valid buffer, whenever `sbuf_put` returns `ele_size`, the record's
`ele_size` bytes are stored at slot-storage offsets `[old tail, old tail + ele_size)`, that
range lies inside the `size` bytes of slot storage, every byte outside the range is
unchanged, and `tail` becomes `sbuf_next_ptr(old tail, ele_size, size)`. -/
theorem sbuf_put_write_footprint (OVERWRITE_EN OVERRUN_CNT_EN : Nat) (sbuf : shared_buf)
    (data : Nat → Nat) (hv : sbuf_valid sbuf)
    (hret : (sbuf_put OVERWRITE_EN OVERRUN_CNT_EN sbuf data).1 = sbuf.ele_size) :
    (∀ i, i < sbuf.ele_size →
      (sbuf_put OVERWRITE_EN OVERRUN_CNT_EN sbuf data).2.buf (sbuf.tail + i) = data i) ∧
    sbuf.tail + sbuf.ele_size ≤ sbuf.size ∧
    (∀ j, j < sbuf.tail ∨ sbuf.tail + sbuf.ele_size ≤ j →
      (sbuf_put OVERWRITE_EN OVERRUN_CNT_EN sbuf data).2.buf j = sbuf.buf j) ∧
    (sbuf_put OVERWRITE_EN OVERRUN_CNT_EN sbuf data).2.tail
      = sbuf_next_ptr sbuf.tail sbuf.ele_size sbuf.size := by
  obtain ⟨_, g2, _, _⟩ := sbuf_valid_gaps sbuf hv
  have he : 0 < sbuf.ele_size := hv.1
  have hd : ¬ (sbuf_next_ptr sbuf.tail sbuf.ele_size sbuf.size = sbuf.head ∧
      sbuf.flags &&& OVERWRITE_EN = 0) := by
    intro hc
    rw [sbuf_put_full_eq OVERWRITE_EN OVERRUN_CNT_EN sbuf data hc.2 hc.1] at hret
    simp only at hret
    omega
  rw [sbuf_put_write_path OVERWRITE_EN OVERRUN_CNT_EN sbuf data hd]
  refine ⟨?_, g2, ?_, rfl⟩
  · intro i hi
    exact memcpy_s_inside sbuf.buf sbuf.tail data sbuf.ele_size i hi
  · intro j hj
    exact memcpy_s_outside sbuf.buf sbuf.tail data sbuf.ele_size j hj

/-- Witness for C19: a successful enqueue of `ramp_record` into `one_element_buf`
(`tail = 16`): bytes 16 and 23 hold the record, bytes 15 and 24 are untouched, `tail`
becomes 24. -/
theorem sbuf_put_write_footprint_witness :
    (sbuf_valid one_element_buf ∧
      (sbuf_put 2 1 one_element_buf ramp_record).1 = one_element_buf.ele_size) ∧
    (sbuf_put 2 1 one_element_buf ramp_record).2.buf (one_element_buf.tail + 7)
      = ramp_record 7 ∧
    (sbuf_put 2 1 one_element_buf ramp_record).2.buf 24 = one_element_buf.buf 24 ∧
    (sbuf_put 2 1 one_element_buf ramp_record).2.buf 15 = 0 ∧
    (sbuf_put 2 1 one_element_buf ramp_record).2.tail = 24 :=
  ⟨by decide,
   (sbuf_put_write_footprint 2 1 one_element_buf ramp_record (by decide) (by decide)).1 7
     (by decide),
   (sbuf_put_write_footprint 2 1 one_element_buf ramp_record (by decide)
     (by decide)).2.2.1 24 (by decide),
   by decide, by decide⟩

/-- Helper: without 32-bit wraparound and with `pos < scope`, `stride <= scope`, the single
conditional subtraction is reduction modulo `scope`. -/
theorem sbuf_next_ptr_eq_mod (pos stride scope : Nat) (hpos : pos < scope)
    (hs : stride ≤ scope) (hsum : pos + stride < 2 ^ 32) :
    sbuf_next_ptr pos stride scope = (pos + stride) % scope := by
  rw [sbuf_next_ptr_of_no_wrap pos stride scope hsum]
  by_cases hlt : pos + stride < scope
  · rw [if_pos hlt, Nat.mod_eq_of_lt hlt]
  · rw [if_neg hlt, Nat.mod_eq_sub_mod (by omega), Nat.mod_eq_of_lt (by omega)]

/-- Helper: `k` steps from an aligned position `p` of a ring of `size` bytes in slots of
`e` bytes end at `(p + k * e) mod size`. -/
theorem sbuf_next_ptr_iterate (e size p : Nat) (h32 : size < 2 ^ 32)
    (hs : size % e = 0) (hp : p % e = 0) (hlt : p < size) :
    ∀ k, (fun q => sbuf_next_ptr q e size)^[k] p = (p + k * e) % size := by
  intro k
  induction k with
  | zero => simp [Nat.mod_eq_of_lt hlt]
  | succ k ih =>
    rw [Function.iterate_succ_apply', ih]
    have hq : (p + k * e) % size < size := Nat.mod_lt _ (by omega)
    have hqa : (p + k * e) % size % e = 0 := by
      apply Nat.mod_eq_zero_of_dvd
      apply (Nat.dvd_mod_iff (Nat.dvd_of_mod_eq_zero hs)).mpr
      exact Nat.dvd_add (Nat.dvd_of_mod_eq_zero hp) (Nat.dvd_mul_left e k)
    have hgap := aligned_gap e _ size hqa hs hq
    have hstep : (p + (k + 1) * e) % size = ((p + k * e) % size + e) % size := by
      rw [Nat.mod_add_mod, Nat.succ_mul, Nat.add_assoc]
    rw [hstep]
    exact sbuf_next_ptr_eq_mod _ e size hq (by omega) (by omega)

/-- C20: for 32-bit `pos`, `stride`, `scope` with `pos < scope`, `0 < stride <= scope` and
`pos + stride < 2^32`, `sbuf_next_ptr(pos, stride, scope) = (pos + stride) mod scope`;
and on a valid buffer with `n = size / ele_size` slots, applying
`sbuf_next_ptr(., ele_size, size)` `n` times to an aligned position below `size` returns
that position, while `k` applications with `0 < k < n` never do. -/
theorem sbuf_next_ptr_mod_cycle (pos stride scope : Nat)
    (_hscope : scope < 2 ^ 32) (hpos : pos < scope) (_hs0 : 0 < stride)
    (hs : stride ≤ scope) (hsum : pos + stride < 2 ^ 32)
    (s : shared_buf) (hv : sbuf_valid s) (p : Nat) (hp : p < s.size)
    (hpa : p % s.ele_size = 0) :
    sbuf_next_ptr pos stride scope = (pos + stride) % scope ∧
    (fun q => sbuf_next_ptr q s.ele_size s.size)^[s.size / s.ele_size] p = p ∧
    ∀ k, 0 < k → k < s.size / s.ele_size →
      (fun q => sbuf_next_ptr q s.ele_size s.size)^[k] p ≠ p := by
  have hmul : s.size / s.ele_size * s.ele_size = s.size :=
    Nat.div_mul_cancel (Nat.dvd_of_mod_eq_zero hv.2.2.1)
  have hit := sbuf_next_ptr_iterate s.ele_size s.size p hv.2.2.2.1 hv.2.2.1 hpa hp
  refine ⟨sbuf_next_ptr_eq_mod pos stride scope hpos hs hsum, ?_, ?_⟩
  · rw [hit, hmul, Nat.add_mod_right, Nat.mod_eq_of_lt hp]
  · intro k hk0 hkn
    rw [hit]
    have hroom := sbuf_slots_room s hv k (by omega)
    have hpos_k : s.ele_size ≤ k * s.ele_size := Nat.le_mul_of_pos_left _ hk0
    have he : 0 < s.ele_size := hv.1
    by_cases hlt : p + k * s.ele_size < s.size
    · rw [Nat.mod_eq_of_lt hlt]
      omega
    · rw [Nat.mod_eq_sub_mod (by omega), Nat.mod_eq_of_lt (by omega)]
      omega

/-- Witness for C20: the wrapping step `24 + 8` in a ring of 32 bytes, and the 4-slot ring
of `empty_buf_8_32` from position 16: four steps return to 16, two steps do not. -/
theorem sbuf_next_ptr_mod_cycle_witness :
    (32 < 2 ^ 32 ∧ 24 < 32 ∧ 0 < 8 ∧ 8 ≤ 32 ∧ 24 + 8 < 2 ^ 32 ∧ sbuf_valid empty_buf_8_32 ∧
      16 < empty_buf_8_32.size ∧ 16 % empty_buf_8_32.ele_size = 0) ∧
    sbuf_next_ptr 24 8 32 = (24 + 8) % 32 ∧
    (fun q => sbuf_next_ptr q empty_buf_8_32.ele_size empty_buf_8_32.size)^[
      empty_buf_8_32.size / empty_buf_8_32.ele_size] 16 = 16 ∧
    (fun q => sbuf_next_ptr q empty_buf_8_32.ele_size empty_buf_8_32.size)^[2] 16 ≠ 16 :=
  ⟨by decide,
   (sbuf_next_ptr_mod_cycle 24 8 32 (by decide) (by decide) (by decide) (by decide)
      (by decide) empty_buf_8_32 (by decide) 16 (by decide) (by decide)).1,
   (sbuf_next_ptr_mod_cycle 24 8 32 (by decide) (by decide) (by decide) (by decide)
      (by decide) empty_buf_8_32 (by decide) 16 (by decide) (by decide)).2.1,
   (sbuf_next_ptr_mod_cycle 24 8 32 (by decide) (by decide) (by decide) (by decide)
      (by decide) empty_buf_8_32 (by decide) 16 (by decide) (by decide)).2.2 2
      (by decide) (by decide)⟩

end Acrn
